import Mathlib

/-!
Verification of the SimploVoice hotel-assistant NLU / response pipeline.

Shallow embedding of `nlu_processor.py`, `database.py` (`get_rooms`),
`response_generator.py` and `brain.py`. Python regular expressions are
modelled by a small total matcher (`Regex`, `endsFrom`, `reSearch`,
`findIter`) covering exactly the constructs the pattern tables use:
literals, case classes, alternation, `.*`-style wildcards, optional and
starred character predicates, bounded repetition, word boundaries and
anchors. Monetary values are rationals (all rates in the store are exact),
confidences are rationals (0.9 is 9/10).
-/

set_option maxRecDepth 4000

namespace SimploVoice

abbrev Chars := List Char

/-- Python str.strip default whitespace, and the class matched by a regex
blank class: space, tab, newline, carriage return, vertical tab, form feed. -/
def isPySpace (c : Char) : Bool :=
  c = ' ' || c = Char.ofNat 9 || c = Char.ofNat 10 ||
  c = Char.ofNat 13 || c = Char.ofNat 11 || c = Char.ofNat 12

/-- Python str.lower (ASCII range; the pattern tables are ASCII). -/
def pyLower (s : String) : String := String.mk (s.data.map Char.toLower)

/-! Exact rational arithmetic, written through Rat.divInt (the kernel can
evaluate it; the field operations of ℚ are irreducible) and proved equal
to the field operations below. -/

/-- a - b on ℚ by cross multiplication. -/
def qSub (a b : ℚ) : ℚ := Rat.divInt (a.num * b.den - b.num * a.den) (a.den * b.den)

/-- a * b on ℚ. -/
def qMul (a b : ℚ) : ℚ := Rat.divInt (a.num * b.num) (a.den * b.den)

/-- a / b on ℚ. -/
def qDiv (a b : ℚ) : ℚ := Rat.divInt (a.num * b.den) (a.den * b.num)

/-- m / n for naturals, as a rational. -/
def scoreFrac (m n : Nat) : ℚ := Rat.divInt m n

/-- The fixed entity confidence 0.9. -/
def pointNine : ℚ := mkRat 9 10

def stripL (l : Chars) : Chars :=
  ((l.dropWhile isPySpace).reverse.dropWhile isPySpace).reverse

/-- Python str.strip(). -/
def pyStrip (s : String) : String := String.mk (stripL s.data)

/-- Regular expressions, as much of Python re as the tables in
`nlu_processor.py` use. `pred` is a single-character class; `wordB` is
a word boundary; `bos` and `eos` are the anchors (no MULTILINE flag
is ever passed). -/
inductive Regex where
  | eps
  | pred (p : Char → Bool)
  | cat (a b : Regex)
  | alt (a b : Regex)
  | star (a : Regex)
  | wordB
  | bos
  | eos

/-- Python re word character (ASCII: letters, digits, underscore). -/
def isWordChar (c : Char) : Bool := c.isAlphanum || c = '_'

def wordAt (t : Chars) (i : Nat) : Bool :=
  match t.get? i with
  | some c => isWordChar c
  | none => false

def atBoundary (t : Chars) (i : Nat) : Bool :=
  wordAt t i != (if i = 0 then false else wordAt t (i - 1))

/-- Insert into a sorted duplicate-free list of positions. -/
def insPos (x : Nat) : List Nat → List Nat
  | [] => [x]
  | y :: ys => if x < y then x :: y :: ys else if x = y then y :: ys else y :: insPos x ys

def unionPos (xs ys : List Nat) : List Nat := xs.foldr insPos ys

def normPos (xs : List Nat) : List Nat := xs.foldr insPos []

/-- End positions after zero or more characters of the maximal run
satisfying p, starting at i: the end-position set of a starred class. -/
def starPredEnds (p : Char → Bool) (t : Chars) (i : Nat) : List Nat :=
  (List.range (((t.drop i).takeWhile p).length + 1)).map (i + ·)

def starStep (f : Nat → List Nat) (s : List Nat) : List Nat :=
  unionPos (s.flatMap f) s

def starIter (f : Nat → List Nat) : Nat → List Nat → List Nat
  | 0, s => s
  | k + 1, s => starIter f k (starStep f s)

/-- All positions where a match of the regex beginning at i can end
(the set is complete: greedy backtracking chooses one of them, re.search
succeeds exactly when the set is nonempty for some start). -/
def endsFrom (t : Chars) : Regex → Nat → List Nat
  | .eps, i => [i]
  | .pred p, i =>
    match t.get? i with
    | some c => if p c then [i + 1] else []
    | none => []
  | .cat a b, i => normPos ((endsFrom t a i).flatMap (endsFrom t b))
  | .alt a b, i => unionPos (endsFrom t a i) (endsFrom t b i)
  | .star (.pred p), i => starPredEnds p t i
  | .star a, i => starIter (endsFrom t a) (t.length + 1) [i]
  | .wordB, i => if atBoundary t i then [i] else []
  | .bos, i => if i = 0 then [i] else []
  | .eos, i => if i = t.length then [i] else []

/-- Python re.search: does the pattern match anywhere in the text. -/
def reSearch (r : Regex) (t : Chars) : Bool :=
  (List.range (t.length + 1)).any (fun i => !(endsFrom t r i).isEmpty)

/-- Leftmost match start at or after i. -/
def firstMatchStart (r : Regex) (t : Chars) (i : Nat) : Option Nat :=
  (List.range' i (t.length + 1 - i)).find? (fun j => !(endsFrom t r j).isEmpty)

/-- Python re.finditer: leftmost non-overlapping matches, scanning left to
right; after a match the scan resumes at its end (one past it for an
empty match). The end taken is the largest one, which agrees with
greedy backtracking on every pattern of the tables. -/
def findIterAux (r : Regex) (t : Chars) : Nat → Nat → List (Nat × Nat)
  | 0, _ => []
  | fuel + 1, i =>
    match firstMatchStart r t i with
    | none => []
    | some j =>
      let e := (endsFrom t r j).getLastD j
      (j, e) :: findIterAux r t fuel (if e = j then j + 1 else e)

def findIter (r : Regex) (t : Chars) : List (Nat × Nat) :=
  findIterAux r t (t.length + 2) 0

/-! Combinators used to transcribe the pattern strings. -/

def rChar (c : Char) : Regex := .pred (fun x => x = c)

def rStr (s : String) : Regex := s.data.foldr (fun c r => .cat (rChar c) r) .eps

def rAlts : List Regex → Regex
  | [] => .eps
  | [r] => r
  | r :: rs => .alt r (rAlts rs)

def rCats : List Regex → Regex
  | [] => .eps
  | [r] => r
  | r :: rs => .cat r (rCats rs)

def altStrs (l : List String) : Regex := rAlts (l.map rStr)

def rOpt (r : Regex) : Regex := .alt r .eps

def rPlus (r : Regex) : Regex := .cat r (.star r)

/-- The blank class of the patterns. -/
def ws : Regex := .pred isPySpace

def wsP : Regex := rPlus ws

def wsS : Regex := .star ws

/-- The dot: any character but a newline (no DOTALL flag is ever passed). -/
def dotAny : Regex := .pred (fun c => !(c = Char.ofNat 10))

def dotS : Regex := .star dotAny

def wb : Regex := .wordB

def rDigit : Regex := .pred Char.isDigit

/-- A word with an optional plural s, for patterns written rooms? etc. -/
def rPl (s : String) : Regex := .cat (rStr s) (rOpt (rChar 's'))

def apo : Char := Char.ofNat 39

/-! The Intent enumeration, in its declaration order (nlu_processor.py,
class Intent). -/

inductive Intent where
  | QUERY_ROOMS
  | QUERY_PRICES
  | CHECK_AVAILABILITY
  | COMPARE_RATES
  | BOOK_ROOM
  | GREETING
  | GOODBYE
  | HELP
  | UNKNOWN
deriving DecidableEq, BEq, Repr

/-! The intent pattern tables of NLUProcessor._initialize_intent_patterns,
one definition per intent, each regex transcribed in the order written.
The table order below is the dict insertion order of the source:
GREETING, GOODBYE, QUERY_ROOMS, QUERY_PRICES, CHECK_AVAILABILITY,
COMPARE_RATES, BOOK_ROOM, HELP. -/

def greetingPatterns : List Regex := [
  -- \b(hello|hi|hey|greetings|good\s+(morning|afternoon|evening)|hola|namaste)\b
  rCats [wb, rAlts [rStr "hello", rStr "hi", rStr "hey", rStr "greetings",
    rCats [rStr "good", wsP, altStrs ["morning", "afternoon", "evening"]],
    rStr "hola", rStr "namaste"], wb],
  -- ^(hi|hello|hey)[\s\!]*$
  rCats [.bos, altStrs ["hi", "hello", "hey"],
    .star (.pred (fun c => isPySpace c || c = '!')), .eos]]

def goodbyePatterns : List Regex := [
  -- \b(bye|goodbye|see\s+you|take\s+care|have\s+a\s+good|thank\s*you|thanks|thnx|cheers)\b
  rCats [wb, rAlts [rStr "bye", rStr "goodbye",
    rCats [rStr "see", wsP, rStr "you"], rCats [rStr "take", wsP, rStr "care"],
    rCats [rStr "have", wsP, rStr "a", wsP, rStr "good"],
    rCats [rStr "thank", wsS, rStr "you"],
    rStr "thanks", rStr "thnx", rStr "cheers"], wb],
  -- \b(bye|cya|see\s+ya|later|thank)\b
  rCats [wb, rAlts [rStr "bye", rStr "cya", rCats [rStr "see", wsP, rStr "ya"],
    rStr "later", rStr "thank"], wb]]

def queryRoomsPatterns : List Regex := [
  -- \b(what|which|show|list|tell|display).*(rooms?|types?|options?|accommodations?)\b
  rCats [wb, altStrs ["what", "which", "show", "list", "tell", "display"], dotS,
    rAlts [rPl "room", rPl "type", rPl "option", rPl "accommodation"], wb],
  -- \b(available|have).*(rooms?|suites?|accommodations?)\b
  rCats [wb, altStrs ["available", "have"], dotS,
    rAlts [rPl "room", rPl "suite", rPl "accommodation"], wb],
  -- \brooms?\s+(available|do\s+you\s+have|types?)\b
  rCats [wb, rPl "room", wsP,
    rAlts [rStr "available", rCats [rStr "do", wsP, rStr "you", wsP, rStr "have"],
      rPl "type"], wb],
  -- \b(can\s+you\s+)?(show|tell|describe).*(rooms?|options?)\b
  rCats [wb, rOpt (rCats [rStr "can", wsP, rStr "you", wsP]),
    altStrs ["show", "tell", "describe"], dotS, rAlts [rPl "room", rPl "option"], wb],
  -- \b(i\s+want\s+to\s+see|looking\s+for).*(rooms?|options?)\b
  rCats [wb, rAlts [rCats [rStr "i", wsP, rStr "want", wsP, rStr "to", wsP, rStr "see"],
    rCats [rStr "looking", wsP, rStr "for"]], dotS,
    rAlts [rPl "room", rPl "option"], wb],
  -- \b(what\s+kind|what\s+types?).*(rooms?|accommodations?)\b
  rCats [wb, rAlts [rCats [rStr "what", wsP, rStr "kind"],
    rCats [rStr "what", wsP, rPl "type"]], dotS,
    rAlts [rPl "room", rPl "accommodation"], wb]]

def queryPricesPatterns : List Regex := [
  -- \b(what|how\s+much|tell\s+me).*(price|cost|rate|charge|tariff|fee)\b
  rCats [wb, rAlts [rStr "what", rCats [rStr "how", wsP, rStr "much"],
    rCats [rStr "tell", wsP, rStr "me"]], dotS,
    altStrs ["price", "cost", "rate", "charge", "tariff", "fee"], wb],
  -- \b(price|cost|rate|charge|tariff).*(room|deluxe|suite|standard|night)\b
  rCats [wb, altStrs ["price", "cost", "rate", "charge", "tariff"], dotS,
    altStrs ["room", "deluxe", "suite", "standard", "night"], wb],
  -- \bhow\s+much\s+(is|are|does|do|for|per)\b
  rCats [wb, rStr "how", wsP, rStr "much", wsP,
    altStrs ["is", "are", "does", "do", "for", "per"], wb],
  -- pattern 4: what, an optional apostrophe, s, or what\s+is; then .*(price|cost|rate)\b
  rCats [wb, rAlts [rCats [rStr "what", rOpt (rChar apo), rChar 's'],
    rCats [rStr "what", wsP, rStr "is"]], dotS,
    altStrs ["price", "cost", "rate"], wb],
  -- \b(how\s+expensive|how\s+costly|pricing|rates?)\b
  rCats [wb, rAlts [rCats [rStr "how", wsP, rStr "expensive"],
    rCats [rStr "how", wsP, rStr "costly"], rStr "pricing", rPl "rate"], wb],
  -- \b(can\s+you\s+tell).*(price|cost|rate)\b
  rCats [wb, rCats [rStr "can", wsP, rStr "you", wsP, rStr "tell"], dotS,
    altStrs ["price", "cost", "rate"], wb]]

def checkAvailabilityPatterns : List Regex := [
  -- \b(available|availability|vacant|free|open).*(room|tonight|today|tomorrow)\b
  rCats [wb, altStrs ["available", "availability", "vacant", "free", "open"], dotS,
    altStrs ["room", "tonight", "today", "tomorrow"], wb],
  -- \bdo\s+you\s+have\s+(any\s+)?(rooms?|deluxe|suite|standard|vacancy)\b
  rCats [wb, rStr "do", wsP, rStr "you", wsP, rStr "have", wsP,
    rOpt (rCats [rStr "any", wsP]),
    rAlts [rPl "room", rStr "deluxe", rStr "suite", rStr "standard", rStr "vacancy"], wb],
  -- \b(is|are).*(room|deluxe|suite|standard).*(available|vacant|free|open)\b
  rCats [wb, altStrs ["is", "are"], dotS,
    altStrs ["room", "deluxe", "suite", "standard"], dotS,
    altStrs ["available", "vacant", "free", "open"], wb],
  -- \b(any|got).*(rooms?|vacancies|availability).*(available|free|left)\b
  rCats [wb, altStrs ["any", "got"], dotS,
    rAlts [rPl "room", rStr "vacancies", rStr "availability"], dotS,
    altStrs ["available", "free", "left"], wb],
  -- \b(can\s+i\s+get|looking\s+for).*(room|vacancy)\b
  rCats [wb, rAlts [rCats [rStr "can", wsP, rStr "i", wsP, rStr "get"],
    rCats [rStr "looking", wsP, rStr "for"]], dotS,
    altStrs ["room", "vacancy"], wb]]

def compareRatesPatterns : List Regex := [
  -- \b(difference|compare|comparison|vs|versus).*(rate|price|cost)\b
  rCats [wb, altStrs ["difference", "compare", "comparison", "vs", "versus"], dotS,
    altStrs ["rate", "price", "cost"], wb],
  -- \b(direct|booking\.com|ota|online|makemytrip|agoda).*(rate|price|booking|vs)\b
  rCats [wb, altStrs ["direct", "booking.com", "ota", "online", "makemytrip", "agoda"],
    dotS, altStrs ["rate", "price", "booking", "vs"], wb],
  -- \b(cheaper|discount|save|saving|deal|offer)\b
  rCats [wb, altStrs ["cheaper", "discount", "save", "saving", "deal", "offer"], wb],
  -- \b(why\s+)?(book\s+direct|direct\s+booking)\b
  rCats [wb, rOpt (rCats [rStr "why", wsP]),
    rAlts [rCats [rStr "book", wsP, rStr "direct"],
      rCats [rStr "direct", wsP, rStr "booking"]], wb],
  -- \b(better\s+deal|best\s+price|lowest\s+rate)\b
  rCats [wb, rAlts [rCats [rStr "better", wsP, rStr "deal"],
    rCats [rStr "best", wsP, rStr "price"],
    rCats [rStr "lowest", wsP, rStr "rate"]], wb]]

def bookRoomPatterns : List Regex := [
  -- \b(book|reserve|reservation|make\s+a\s+booking)\b
  rCats [wb, rAlts [rStr "book", rStr "reserve", rStr "reservation",
    rCats [rStr "make", wsP, rStr "a", wsP, rStr "booking"]], wb],
  -- \bi\s+want\s+(to\s+book|to\s+reserve|a\s+room)\b
  rCats [wb, rStr "i", wsP, rStr "want", wsP,
    rAlts [rCats [rStr "to", wsP, rStr "book"], rCats [rStr "to", wsP, rStr "reserve"],
      rCats [rStr "a", wsP, rStr "room"]], wb],
  -- \b(can\s+i|how\s+to|how\s+do\s+i).*(book|reserve)\b
  rCats [wb, rAlts [rCats [rStr "can", wsP, rStr "i"],
    rCats [rStr "how", wsP, rStr "to"],
    rCats [rStr "how", wsP, rStr "do", wsP, rStr "i"]], dotS,
    altStrs ["book", "reserve"], wb],
  -- \b(direct\s+book|book\s+direct|book\s+from\s+here)\b
  rCats [wb, rAlts [rCats [rStr "direct", wsP, rStr "book"],
    rCats [rStr "book", wsP, rStr "direct"],
    rCats [rStr "book", wsP, rStr "from", wsP, rStr "here"]], wb],
  -- \b(need\s+a\s+room|want\s+a\s+room|get\s+a\s+room)\b
  rCats [wb, rAlts [rCats [rStr "need", wsP, rStr "a", wsP, rStr "room"],
    rCats [rStr "want", wsP, rStr "a", wsP, rStr "room"],
    rCats [rStr "get", wsP, rStr "a", wsP, rStr "room"]], wb],
  -- \b(proceed|go\s+ahead).*(booking|reservation)\b
  rCats [wb, rAlts [rStr "proceed", rCats [rStr "go", wsP, rStr "ahead"]], dotS,
    altStrs ["booking", "reservation"], wb]]

/-- check with an optional space or hyphen, used for check-in / check-out
and wi-fi style patterns written with a class of space and hyphen. -/
def spaceDash : Regex := rOpt (.pred (fun c => c = ' ' || c = '-'))

def helpPatterns : List Regex := [
  -- \b(help|assist|support)\b
  rCats [wb, altStrs ["help", "assist", "support"], wb],
  -- \b(what|when|where|how).*(check[ -]?in|check[ -]?out|time|hour)\b
  rCats [wb, altStrs ["what", "when", "where", "how"], dotS,
    rAlts [rCats [rStr "check", spaceDash, rStr "in"],
      rCats [rStr "check", spaceDash, rStr "out"], rStr "time", rStr "hour"], wb],
  -- \b(wifi|internet|wi[ -]?fi|password)\b
  rCats [wb, rAlts [rStr "wifi", rStr "internet",
    rCats [rStr "wi", spaceDash, rStr "fi"], rStr "password"], wb],
  -- \b(parking|park)\b
  rCats [wb, altStrs ["parking", "park"], wb],
  -- \b(breakfast|food|meal|dining)\b
  rCats [wb, altStrs ["breakfast", "food", "meal", "dining"], wb],
  -- \b(cancel|cancellation|refund)\b
  rCats [wb, altStrs ["cancel", "cancellation", "refund"], wb],
  -- \b(payment|pay|credit|cash)\b
  rCats [wb, altStrs ["payment", "pay", "credit", "cash"], wb],
  -- \b(pet|pets|dog|cat|animal)\b
  rCats [wb, altStrs ["pet", "pets", "dog", "cat", "animal"], wb],
  -- \b(allow|accept|permit)\b
  rCats [wb, altStrs ["allow", "accept", "permit"], wb],
  -- \b(do you (have|offer|provide)|is there|can i|are.*allowed)\b
  rCats [wb, rAlts [rCats [rStr "do you ", altStrs ["have", "offer", "provide"]],
    rStr "is there", rStr "can i", rCats [rStr "are", dotS, rStr "allowed"]], wb],
  -- \b(policy|policies|rule|rules)\b
  rCats [wb, altStrs ["policy", "policies", "rule", "rules"], wb],
  -- \b(pickup|airport|transport)\b
  rCats [wb, altStrs ["pickup", "airport", "transport"], wb]]

/-- NLUProcessor._initialize_intent_patterns: the dict, in insertion order. -/
def intentPatterns : List (Intent × List Regex) := [
  (Intent.GREETING, greetingPatterns),
  (Intent.GOODBYE, goodbyePatterns),
  (Intent.QUERY_ROOMS, queryRoomsPatterns),
  (Intent.QUERY_PRICES, queryPricesPatterns),
  (Intent.CHECK_AVAILABILITY, checkAvailabilityPatterns),
  (Intent.COMPARE_RATES, compareRatesPatterns),
  (Intent.BOOK_ROOM, bookRoomPatterns),
  (Intent.HELP, helpPatterns)]

/-! Entity pattern tables of NLUProcessor._initialize_entity_patterns:
each pattern carries an optional canonical value (none means the matched
substring itself is the value). Table order is the dict insertion order:
room_type, number, date, booking_source. -/

/-- The pattern for deluxe as a whole word. -/
def deluxeWordPattern : Regex := rCats [wb, rStr "deluxe", wb]

/-- The pattern for a whole-word run of digits. -/
def numberDigitsPattern : Regex := rCats [wb, rPlus rDigit, wb]

def roomTypePatterns : List (Regex × Option String) := [
  (rCats [wb, rStr "deluxe", wsP, rStr "room", wb], some "deluxe"),
  (deluxeWordPattern, some "deluxe"),
  (rCats [wb, rStr "suite", wsP, rStr "room", wb], some "suite"),
  (rCats [wb, rStr "suite", wb], some "suite"),
  (rCats [wb, rStr "standard", wsP, rStr "room", wb], some "standard"),
  (rCats [wb, rStr "standard", wb], some "standard"),
  (rCats [wb, rStr "executive", wsP, rStr "room", wb], some "executive"),
  (rCats [wb, rStr "executive", wb], some "executive"),
  (rCats [wb, rStr "luxury", wsP, rStr "room", wb], some "deluxe"),
  (rCats [wb, rStr "premium", wsP, rStr "room", wb], some "deluxe"),
  (rCats [wb, rStr "basic", wsP, rStr "room", wb], some "standard"),
  (rCats [wb, rStr "regular", wsP, rStr "room", wb], some "standard")]

def numberPatterns : List (Regex × Option String) := [
  (numberDigitsPattern, none),
  (rCats [wb, altStrs ["one", "two", "three", "four", "five", "six", "seven",
    "eight", "nine", "ten"], wb], none)]

/-- Slash or hyphen, the date separator class. -/
def dateSep : Regex := .pred (fun c => c = '/' || c = '-')

def datePatterns : List (Regex × Option String) := [
  (rCats [wb, altStrs ["today", "tomorrow", "tonight"], wb], none),
  -- one or two digits, a separator, one or two digits, a separator, two to four digits
  (rCats [wb, rDigit, rOpt rDigit, dateSep, rDigit, rOpt rDigit, dateSep,
    rDigit, rDigit, rOpt rDigit, rOpt rDigit, wb], none)]

def bookingSourcePatterns : List (Regex × Option String) := [
  (rCats [wb, altStrs ["booking.com", "airbnb", "expedia", "ota", "online"], wb],
    some "ota"),
  (rCats [wb, altStrs ["direct", "directly", "website"], wb], some "direct")]

def entityPatterns : List (String × List (Regex × Option String)) := [
  ("room_type", roomTypePatterns),
  ("number", numberPatterns),
  ("date", datePatterns),
  ("booking_source", bookingSourcePatterns)]

/-! The NLU processor: data model and classification (nlu_processor.py). -/

/-- An extracted entity. Confidence is the fixed pattern-match confidence,
0.9 as a rational. -/
structure Entity where
  type : String
  value : String
  confidence : ℚ
deriving DecidableEq, Repr

structure NLUResult where
  intent : Intent
  confidence : ℚ
  entities : List Entity
  original_text : String
deriving DecidableEq, Repr

/-- NLUProcessor._recognize_intent, scoring loop: for each intent of the
table, the count of its patterns that match; intents with no match are
dropped; the confidence is min of the matched fraction and 1. The match
test is a parameter so that the score arithmetic can be reasoned about
for any matcher; the processor instantiates it with reSearch on the
lower-cased stripped text. -/
def intentScores (sr : Regex → Bool) : List (Intent × ℚ) :=
  intentPatterns.filterMap fun p =>
    let score := p.2.countP sr
    if 0 < score then some (p.1, min (scoreFrac score p.2.length) 1) else none

/-- One step of the Python max scan: replace the best only on a strictly
greater key, so of tied maxima the earliest in the list wins. -/
def pyMaxStep (b y : Intent × ℚ) : Intent × ℚ := if b.2 < y.2 then y else b

/-- NLUProcessor._recognize_intent: the intent with the highest confidence;
Python max over the score dict returns the first maximal entry in
insertion order. No match at all gives (UNKNOWN, 0.0). -/
def recognizeIntent (sr : Regex → Bool) : Intent × ℚ :=
  match intentScores sr with
  | [] => (Intent.UNKNOWN, 0)
  | x :: xs => xs.foldl pyMaxStep x

/-- The matched substring match.group(0), as a string. -/
def sliceStr (t : Chars) (s e : Nat) : String := String.mk ((t.drop s).take (e - s))

/-- The value an entity match produces: the canonical value when the
pattern carries one, else the matched substring. -/
def entityValue (t : Chars) (pr : Regex × Option String) (m : Nat × Nat) : String :=
  match pr.2 with
  | some v => v
  | none => sliceStr t m.1 m.2

/-- NLUProcessor._extract_entities: for every entity type in table order,
for every pattern in order, every finditer match produces one Entity;
the confidence is always 0.9. -/
def extractEntities (t : Chars) : List Entity :=
  entityPatterns.flatMap fun tp =>
    tp.2.flatMap fun pr =>
      (findIter pr.1 t).map fun m =>
        { type := tp.1, value := entityValue t pr m, confidence := pointNine }

/-- extractEntities with each entity tagged by its provenance: the entity
type index in the table, the pattern index under that type, and the
match start position. -/
def extractTagged (t : Chars) : List ((Nat × Nat × Nat) × Entity) :=
  entityPatterns.enum.flatMap fun tb =>
    tb.2.2.enum.flatMap fun pb =>
      (findIter pb.2.1 t).map fun m =>
        ((tb.1, pb.1, m.1),
         { type := tb.2.1, value := entityValue t pb.2 m, confidence := pointNine })

/-- Strict lexicographic order on the provenance tags. -/
def keyLt (a b : Nat × Nat × Nat) : Prop :=
  a.1 < b.1 ∨ (a.1 = b.1 ∧ (a.2.1 < b.2.1 ∨ (a.2.1 = b.2.1 ∧ a.2.2 < b.2.2)))

/-- The lower-cased stripped character list the processor matches against. -/
def loweredChars (text : String) : Chars := (pyStrip (pyLower text)).data

/-- NLUProcessor.process: lower-case and strip, recognize the intent,
extract the entities, keep the original text. -/
def process (text : String) : NLUResult :=
  let t := loweredChars text
  let ic := recognizeIntent (fun r => reSearch r t)
  { intent := ic.1, confidence := ic.2, entities := extractEntities t,
    original_text := text }

/-! Configuration (config.py, with the default environment: no overriding
environment variables set). -/

def currency_symbol : String := "₹"

def direct_discount_percentage : Int := 15

/-! The room store (database.py). A row of the rooms table; the store
itself is a parameter (a list of rows), seeded below with the data of
init_db. Rates are rationals: every stored rate is an exact decimal. -/

structure RoomRow where
  id : Int
  name : String
  room_type : String
  rack_rate : ℚ
  direct_rate : ℚ
  inventory : Int
  description : String
  amenities : String
  max_occupancy : Int
deriving DecidableEq, Repr

/-- A room dictionary as get_rooms returns it, derived fields included. -/
structure Room where
  id : Int
  name : String
  room_type : String
  rack_rate : ℚ
  direct_rate : ℚ
  inventory : Int
  description : String
  amenities : String
  max_occupancy : Int
  savings : ℚ
  discount_percentage : Int
deriving DecidableEq, Repr

/-- Python round (and the rounding of a 0-decimals float format): round
half to even, computed on the numerator and denominator. f is the floor
of q and r the remainder, so the fractional part is r over den; it is
compared with one half by cross multiplication. -/
def pyRound (q : ℚ) : Int :=
  let d := (q.den : Int)
  let f := Int.ediv q.num d
  let r := q.num - f * d
  if 2 * r < d then f
  else if d < 2 * r then f + 1
  else if f % 2 = 0 then f else f + 1

def toRoomDict (r : RoomRow) : Room :=
  { id := r.id, name := r.name, room_type := r.room_type,
    rack_rate := r.rack_rate, direct_rate := r.direct_rate,
    inventory := r.inventory, description := r.description,
    amenities := r.amenities, max_occupancy := r.max_occupancy,
    savings := qSub r.rack_rate r.direct_rate,
    discount_percentage := pyRound (qMul (qDiv (qSub r.rack_rate r.direct_rate) r.rack_rate) 100) }

def insertByRack (r : Room) : List Room → List Room
  | [] => [r]
  | x :: xs => if r.rack_rate < x.rack_rate then r :: x :: xs else x :: insertByRack r xs

/-- ORDER BY rack_rate ascending. -/
def sortByRack (l : List Room) : List Room := l.foldr insertByRack []

/-- database.get_rooms: the rows, restricted to inventory > 0 when
available_only, ordered by rack_rate ascending, as dictionaries with the
derived savings and discount percentage. -/
def get_rooms (db : List RoomRow) (available_only : Bool) : List Room :=
  sortByRack (((if available_only then db.filter (fun r => 0 < r.inventory) else db)).map toRoomDict)

/-- The seed rows of init_db. -/
def seedRooms : List RoomRow := [
  { id := 1, name := "Deluxe Room", room_type := "deluxe", rack_rate := 5000,
    direct_rate := 4250, inventory := 10,
    description := "Spacious room with premium amenities",
    amenities := "WiFi, TV, AC, Mini-bar", max_occupancy := 2 },
  { id := 2, name := "Suite Room", room_type := "suite", rack_rate := 8000,
    direct_rate := 6800, inventory := 5,
    description := "Luxury suite with separate living area",
    amenities := "WiFi, TV, AC, Mini-bar, Bathtub, Balcony", max_occupancy := 4 },
  { id := 3, name := "Standard Room", room_type := "standard", rack_rate := 3000,
    direct_rate := 2550, inventory := 15,
    description := "Comfortable room with essential amenities",
    amenities := "WiFi, TV, AC", max_occupancy := 2 },
  { id := 4, name := "Executive Room", room_type := "executive", rack_rate := 6500,
    direct_rate := 5525, inventory := 8,
    description := "Business-class room with work desk",
    amenities := "WiFi, TV, AC, Mini-bar, Work Desk", max_occupancy := 2 }]

/-- The seed rows with the suite sold out (inventory 0), the store state of
the end-to-end sold-out scenario. -/
def seedRoomsSuiteSoldOut : List RoomRow :=
  seedRooms.map fun r => if r.room_type = "suite" then { r with inventory := 0 } else r

/-- A FAQ dictionary as the FAQ store returns it. -/
structure Faq where
  question : String
  answer : String
  category : String
deriving DecidableEq, Repr

/-! The response generator (response_generator.py). The FAQ store is a
parameter (search_faqs : search term to matching FAQs); the room store is
the row list. String templates are copied byte for byte from the source
file, including its literally-encoded emoji byte sequences. -/

structure ResponseContext where
  intent : Intent
  entities : List Entity
  user_query : String
  room_data : Option (List Room)
deriving DecidableEq, Repr

/-- Substring test, Python operator in on lower-cased strings. -/
def occursIn (pat : Chars) : Chars → Bool
  | [] => pat.isEmpty
  | c :: rest => pat.isPrefixOf (c :: rest) || occursIn pat rest

/-- Digits of n, least significant first; the first argument is fuel
(n itself suffices). -/
def decDigitsAux : Nat → Nat → List Nat
  | 0, _ => []
  | _, 0 => []
  | f + 1, n + 1 => ((n + 1) % 10) :: decDigitsAux f ((n + 1) / 10)

/-- Decimal digit characters of n, most significant first. -/
def decChars (n : Nat) : List Char :=
  if n = 0 then ['0'] else ((decDigitsAux n n).map Nat.digitChar).reverse

/-- Insert a comma after every third character; the input is reversed, so
this groups thousands from the right. -/
def group3 : List Char → List Char
  | a :: b :: c :: d :: rest => a :: b :: c :: ',' :: group3 (d :: rest)
  | l => l

/-- Decimal rendering of n with thousands separators. -/
def commaGroup (n : Nat) : String := String.mk ((group3 (decChars n).reverse).reverse)

/-- ResponseGenerator._format_price, the shared currency formatter: the
configured symbol, then the value rounded to zero decimal places with
thousands separators (the Python comma float format). -/
def format_price (q : ℚ) : String :=
  let r := pyRound q
  currency_symbol ++ (if r < 0 then "-" ++ commaGroup (-r).toNat else commaGroup r.toNat)

/-! Response templates (ResponseGenerator._initialize_templates). -/

def greetingTemplates : List String := [
  "Hi there! ðŸ‘‹ I'm your booking assistant. I can show you rooms, prices, and help you save 15% by booking direct. What are you looking for?",
  "Hello! ðŸ¨ Ready to find your perfect room at the best price? Ask me about our rooms, rates, or availability!"]

def goodbyeTemplates : List String := [
  "Thanks for chatting! ðŸ™Œ Remember, book direct to save 15%. Have a wonderful day!",
  "Goodbye! ðŸ‘‹ Don't forget - direct bookings always get the best price. See you soon!"]

def helpTemplate : String :=
  "I can help you with:\nâ€¢ View rooms & amenities\nâ€¢ Check prices & compare rates\nâ€¢ Book rooms directly\nâ€¢ Answer FAQs\n\nWhat would you like to know?"

/-! Per-intent handlers. Each takes the context and returns the response
string together with the context as the handler leaves it (the Python
handlers mutate context.room_data in place). -/

/-- The room data a handler works with: Python, if not context.room_data,
fetches; None and the empty list are both falsy. -/
def resolveRooms (db : List RoomRow) (rd : Option (List Room)) : List Room :=
  match rd with
  | some l => if l.isEmpty then get_rooms db true else l
  | none => get_rooms db true

def roomTypeEntities (es : List Entity) : List Entity :=
  es.filter (fun e => e.type == "room_type")

/-- Case-insensitive substring test of the filters:
room_type.lower() in r[name].lower(). -/
def nameHasType (value name : String) : Bool :=
  occursIn (pyLower value).data (pyLower name).data

/-- The filter _handle_room_query applies when a room_type entity exists. -/
def filterByType (es : List Entity) (rooms : List Room) : List Room :=
  match (roomTypeEntities es).head? with
  | some e => rooms.filter (fun r => nameHasType e.value r.name)
  | none => rooms

def handle_greeting (ctx : ResponseContext) : String × ResponseContext :=
  (greetingTemplates.headD "", ctx)

def handle_goodbye (ctx : ResponseContext) : String × ResponseContext :=
  (goodbyeTemplates.headD "", ctx)

/-- The keyword-to-search-term table of _handle_help, in dict insertion
order. -/
def faqKeywords : List (String × List String) := [
  ("check-in", ["check-in", "check in", "checkin", "check out", "checkout", "time", "hour"]),
  ("WiFi", ["wifi", "internet", "wi-fi", "password", "network"]),
  ("cancellation", ["cancel", "cancellation", "refund"]),
  ("parking", ["parking", "park", "vehicle", "car"]),
  ("breakfast", ["breakfast", "food", "meal", "dining"]),
  ("payment", ["payment", "pay", "credit", "cash", "card"]),
  ("pets", ["pet", "pets", "dog", "cat", "animal"]),
  ("airport", ["airport", "pickup", "transport", "shuttle"])]

/-- The scan of _handle_help: first table entry with a keyword in the
query whose FAQ search comes back nonempty; a matching entry with an
empty search result leaves the scan running (faqs is overwritten with
the empty list and the loop continues). -/
def findFaqs (search_faqs : String → List Faq) (queryLower : String) :
    List (String × List String) → List Faq
  | [] => []
  | (term, kws) :: rest =>
    if kws.any (fun kw => occursIn kw.data queryLower.data) then
      let faqs := search_faqs term
      if faqs.isEmpty then findFaqs search_faqs queryLower rest else faqs
    else findFaqs search_faqs queryLower rest

def handle_help (search_faqs : String → List Faq) (ctx : ResponseContext) :
    String × ResponseContext :=
  let queryLower := pyLower ctx.user_query
  match findFaqs search_faqs queryLower faqKeywords with
  | faq :: _ =>
    ("**" ++ faq.question ++ "**\n\n" ++ faq.answer ++ "\n\nNeed help with something else?", ctx)
  | [] => (helpTemplate, ctx)

def apologyNoRooms : String :=
  "I apologize, but we don't have any rooms available at the moment. Please check back later."

def singleRoomResponse (room : Room) : String :=
  "Great choice! Our **" ++ room.name ++ "** is available (" ++
    toString room.inventory ++ " rooms left).\n\n" ++
  "ðŸ’° **Pricing:** OTA sites charge " ++ format_price room.rack_rate ++ "/night, " ++
  "but book direct for just " ++ format_price room.direct_rate ++ " - save " ++
    format_price (qSub room.rack_rate room.direct_rate) ++ "!\n\n" ++
  "Ready to book?"

def comparisonLine (room : Room) : String :=
  "**" ++ room.name ++ "** - " ++ format_price room.direct_rate ++ "/night " ++
  "(save " ++ format_price (qSub room.rack_rate room.direct_rate) ++ "!) â€¢ " ++
    toString room.inventory ++ " available\n"

def comparisonResponse (rooms : List Room) : String :=
  "We have " ++ toString rooms.length ++ " room types available:\n\n" ++
  String.join (rooms.map comparisonLine) ++
  "\nâœ¨ *All prices are 15% off OTA rates when you book direct!*"

/-- ResponseGenerator._handle_room_query. The fetched (or supplied) list is
checked for emptiness before, not after, the room-type filter; the filter
is written back into the context; a filter that leaves zero rooms falls
into the comparison branch. -/
def handle_room_query (db : List RoomRow) (ctx : ResponseContext) :
    String × ResponseContext :=
  let r := resolveRooms db ctx.room_data
  if r.isEmpty then (apologyNoRooms, { ctx with room_data := some r })
  else
    let f := filterByType ctx.entities r
    match f with
    | [room] => (singleRoomResponse room, { ctx with room_data := some f })
    | _ => (comparisonResponse f, { ctx with room_data := some f })

def priceDetailResponse (room : Room) : String :=
  "**" ++ room.name ++ " Pricing:**\n\n" ++
  "ðŸ·ï¸ OTA Platforms: " ++ format_price room.rack_rate ++ "\n" ++
  "âœ¨ Direct Booking: " ++ format_price room.direct_rate ++ "\n\n" ++
  "ðŸ’° **You save " ++ format_price (qSub room.rack_rate room.direct_rate) ++
    "** by booking directly!\n\n" ++
  "That's a " ++ toString direct_discount_percentage ++
    "% discount compared to Booking.com, Expedia, etc."

def priceListLine (room : Room) : String :=
  "â€¢ **" ++ room.name ++ ":** " ++ format_price room.direct_rate ++ "/night " ++
  "*(save " ++ format_price (qSub room.rack_rate room.direct_rate) ++ ")*\n"

def priceListResponse (rooms : List Room) : String :=
  "**Direct Booking Prices** (15% off OTA rates):\n\n" ++
  String.join (rooms.map priceListLine) ++
  "\nðŸ’¡ These are direct booking prices - all 15% cheaper than Booking.com/MakeMyTrip!"

/-- ResponseGenerator._handle_price_query. -/
def handle_price_query (db : List RoomRow) (ctx : ResponseContext) :
    String × ResponseContext :=
  let r := resolveRooms db ctx.room_data
  let ctx2 := { ctx with room_data := some r }
  match (roomTypeEntities ctx.entities).head? with
  | some e =>
    match r.filter (fun rm => nameHasType e.value rm.name) with
    | room :: _ => (priceDetailResponse room, ctx2)
    | [] => (priceListResponse r, ctx2)
  | none => (priceListResponse r, ctx2)

def availabilityYes (room : Room) : String :=
  "Yes! We have **" ++ toString room.inventory ++ " " ++ room.name ++
    "(s)** available.\n\n" ++
  "Direct booking rate: " ++ format_price room.direct_rate ++ "\n" ++
  "(Save " ++ format_price room.savings ++ " vs OTA platforms)\n\n" ++
  "Would you like to proceed with booking?"

def availabilitySoldOut (room : Room) : String :=
  "Sorry, " ++ room.name ++ " is currently sold out. Can I suggest another room type?"

def availabilityLine (room : Room) : String :=
  "- " ++ room.name ++ ": " ++ toString room.inventory ++ " rooms at " ++
    format_price room.direct_rate ++ "\n"

def availabilityGeneral (avail : List Room) : String :=
  "We have " ++ toString avail.length ++ " room types available:\n\n" ++
  String.join (avail.map availabilityLine) ++
  "\nðŸ’¡ Book directly to save 15%!"

def fullyBookedResponse : String :=
  "Unfortunately, we're fully booked at the moment. Would you like me to check alternative dates?"

/-- ResponseGenerator._handle_availability. With a room-type entity and a
matching room the inventory decides between the confirmation and the
sold-out apology; with no entity, or no matching room, the general
listing of rooms with inventory > 0 (or the fully-booked message). -/
def handle_availability (db : List RoomRow) (ctx : ResponseContext) :
    String × ResponseContext :=
  let r := resolveRooms db ctx.room_data
  let ctx2 := { ctx with room_data := some r }
  let general :=
    let avail := r.filter (fun x => 0 < x.inventory)
    if avail.isEmpty then (fullyBookedResponse, ctx2)
    else (availabilityGeneral avail, ctx2)
  match (roomTypeEntities ctx.entities).head? with
  | some e =>
    match r.filter (fun rm => nameHasType e.value rm.name) with
    | room :: _ =>
      if 0 < room.inventory then (availabilityYes room, ctx2)
      else (availabilitySoldOut room, ctx2)
    | [] => general
  | none => general

def compareBlock (room : Room) : String :=
  "**" ++ room.name ++ ":**\n" ++
  "- Booking.com/Expedia: " ++ format_price room.rack_rate ++ "\n" ++
  "- Our Direct Rate: " ++ format_price room.direct_rate ++ "\n" ++
  "- Your Savings: " ++ format_price (qSub room.rack_rate room.direct_rate) ++ "\n\n"

/-- ResponseGenerator._handle_rate_comparison (the aggregate totals the
source computes are never rendered). -/
def handle_rate_comparison (db : List RoomRow) (ctx : ResponseContext) :
    String × ResponseContext :=
  let r := resolveRooms db ctx.room_data
  let resp :=
    "**Direct Booking vs OTA Platforms:**\n\n" ++
    "Here's how much you save by booking directly:\n\n" ++
    String.join (r.map compareBlock) ++
    "ðŸŽ¯ **Bottom Line:** By booking directly, you avoid OTA commissions " ++
    "and get " ++ toString direct_discount_percentage ++ "% off!\n\n" ++
    "No hidden fees. No middleman. Just better prices."
  (resp, { ctx with room_data := some r })

def bookingSpecific (room : Room) : String :=
  "Perfect! Let me help you book the **" ++ room.name ++ "**.\n\n" ++
  "ðŸ“ž **Call us at: +91-XXXX-XXXX** (24/7 booking line)\n" ++
  "ðŸ’» **Or book online at: www.simplotel.com/direct-booking**\n\n" ++
  "ðŸ’° **Your Price:** " ++ format_price room.direct_rate ++ "/night (save " ++
    format_price (qSub room.rack_rate room.direct_rate) ++ "!)\n" ++
  "âœ… **Mention code:** DIRECT15 to confirm your discount\n\n" ++
  "Ready to book now? Just call or visit our website!"

def bookingListLine (r : Room) : String :=
  "â€¢ **" ++ r.name ++ "** - " ++ format_price r.direct_rate ++ "/night (" ++
    toString r.inventory ++ " available)"

def bookingGeneral (rooms : List Room) : String :=
  "Absolutely! I'd be happy to help you book directly and save 15%! ðŸŽ‰\n\n" ++
  "**Available rooms:**\n" ++ String.intercalate "\n" (rooms.map bookingListLine) ++ "\n\n" ++
  "ðŸ“ž **Book now:** Call +91-XXXX-XXXX or visit www.simplotel.com\n" ++
  "ðŸ’° **Use code DIRECT15** for your 15% discount!\n\n" ++
  "Which room type interests you?"

/-- ResponseGenerator._handle_booking. With a room-type entity matching a
room, the room-specific booking instructions; otherwise (the entity
branch falls through when nothing matches) the general list, fetching
again if the data is still falsy. -/
def handle_booking (db : List RoomRow) (ctx : ResponseContext) :
    String × ResponseContext :=
  match (roomTypeEntities ctx.entities).head? with
  | some e =>
    let r := resolveRooms db ctx.room_data
    match r.filter (fun rm => nameHasType e.value rm.name) with
    | room :: _ => (bookingSpecific room, { ctx with room_data := some r })
    | [] =>
      let r2 := resolveRooms db (some r)
      (bookingGeneral r2, { ctx with room_data := some r2 })
  | none =>
    let r := resolveRooms db ctx.room_data
    (bookingGeneral r, { ctx with room_data := some r })

def unknownResponse : String :=
  "I'm not sure I understood that correctly. I can help you with:\n\n" ++
  "- Viewing available rooms and prices\n" ++
  "- Comparing direct booking vs OTA rates\n" ++
  "- Checking room availability\n" ++
  "- Making reservations\n\n" ++
  "What would you like to know?"

def handle_unknown (ctx : ResponseContext) : String × ResponseContext :=
  (unknownResponse, ctx)

/-- ResponseGenerator.generate_response: the dispatch table; intents
without a handler (only UNKNOWN) use the unknown handler. -/
def generate_response (db : List RoomRow) (search_faqs : String → List Faq)
    (ctx : ResponseContext) : String × ResponseContext :=
  match ctx.intent with
  | .GREETING => handle_greeting ctx
  | .GOODBYE => handle_goodbye ctx
  | .HELP => handle_help search_faqs ctx
  | .QUERY_ROOMS => handle_room_query db ctx
  | .QUERY_PRICES => handle_price_query db ctx
  | .CHECK_AVAILABILITY => handle_availability db ctx
  | .COMPARE_RATES => handle_rate_comparison db ctx
  | .BOOK_ROOM => handle_booking db ctx
  | .UNKNOWN => handle_unknown ctx

/-! The orchestrator (brain.py). The language-model interaction is an
oracle: the first chat completion either raises (any exception, timeout
or malformed payload that the broad try of _generate_ai_response catches)
or returns a message with a tool-call list and an optional content; when
the first tool call is the get_rooms tool, a second completion either
raises or returns its optional content. Prompt construction is pure and
only feeds the external model, so it does not appear in the outputs. -/

structure AiMessage where
  toolCalls : List String
  content : Option String
deriving DecidableEq, Repr

structure AiOracle where
  first : Except Unit AiMessage
  second : Except Unit (Option String)

/-- Python truthiness of response_message.content: None and the empty
string are falsy. -/
def truthyContent : Option String → Bool
  | none => false
  | some s => !s.isEmpty

/-- brain._fallback_response: the rule-based generator on the same data,
with the user query taken from the NLU result's original text. -/
def fallback_response (db : List RoomRow) (search_faqs : String → List Faq)
    (nlu : NLUResult) (entities : List Entity) (room_data : Option (List Room)) : String :=
  (generate_response db search_faqs
    { intent := nlu.intent, entities := entities,
      user_query := nlu.original_text, room_data := room_data }).1

/-- brain._generate_ai_response. An exception at either completion falls
back; a first completion whose content is falsy (and which requested no
usable tool) falls back; but the content of the second completion, after
a get_rooms tool call, is returned as it is. The value none is Python
None escaping as the chat response. -/
def generate_ai_response (db : List RoomRow) (search_faqs : String → List Faq)
    (oracle : AiOracle) (nlu : NLUResult) (room_data : Option (List Room))
    (entities : List Entity) : Option String :=
  match oracle.first with
  | .error _ => some (fallback_response db search_faqs nlu entities room_data)
  | .ok msg =>
    match msg.toolCalls with
    | name :: _ =>
      if name = "get_rooms" then
        match oracle.second with
        | .error _ => some (fallback_response db search_faqs nlu entities room_data)
        | .ok c => c
      else if truthyContent msg.content then msg.content
      else some (fallback_response db search_faqs nlu entities room_data)
    | [] =>
      if truthyContent msg.content then msg.content
      else some (fallback_response db search_faqs nlu entities room_data)

/-- The intents for which brain.get_agent_response pre-fetches room data. -/
def fetchIntents : List Intent :=
  [.QUERY_ROOMS, .QUERY_PRICES, .CHECK_AVAILABILITY, .COMPARE_RATES]

/-- brain.get_agent_response, the one public turn operation: NLU, data
fetch for the intents that need it, then the AI path (when asked for and
a client exists) or the rule-based path. Logging is fire-and-forget and
does not touch the response. -/
def get_agent_response (db : List RoomRow) (search_faqs : String → List Faq)
    (oracle : AiOracle) (client : Bool) (user_text : String)
    (use_ai : Option Bool) : Option String :=
  let nlu := process user_text
  let room_data :=
    if fetchIntents.contains nlu.intent then some (get_rooms db true) else none
  let entities := nlu.entities
  let should_use_ai := match use_ai with | some b => b | none => false
  if should_use_ai && client then
    generate_ai_response db search_faqs oracle nlu room_data entities
  else
    some (generate_response db search_faqs
      { intent := nlu.intent, entities := entities,
        user_query := user_text, room_data := room_data }).1

/-! Helper definitions the theorems are stated with, and the concrete
inputs of the counterexamples and witnesses. -/

/-- The pattern list of an intent (lookup in the pattern table). -/
def patternsFor (i : Intent) : List Regex :=
  match intentPatterns.find? (fun p => p.1 == i) with
  | some p => p.2
  | none => []

def numPatterns (i : Intent) : Nat := (patternsFor i).length

/-- How many of an intent's patterns a given matcher satisfies. -/
def matchedCountBy (sr : Regex → Bool) (i : Intent) : Nat :=
  (patternsFor i).countP sr

/-- How many of an intent's patterns match the lower-cased stripped text. -/
def matchedCount (text : String) (i : Intent) : Nat :=
  matchedCountBy (fun r => reSearch r (loweredChars text)) i

/-- A text on which GREETING matches one of two patterns and QUERY_ROOMS
three of six: two intents tied at score one half. -/
def tieText : String := "hello show me what kind of rooms you have"

def helloMatcher : Regex → Bool := fun r => reSearch r (loweredChars "hello")

/-- The end-to-end sold-out scenario input of the spec. -/
def availQuery : String := "Do you have any suites available?"

/-- A text whose first entity in match order (the number 2, at position 0)
is extracted after the room type (at position 2). -/
def orderText : String := "2 deluxe"

/-- An empty FAQ store. -/
def sfEmpty : String → List Faq := fun _ => []

/-- An oracle that fails both completions. -/
def failingOracle : AiOracle := { first := .error (), second := .error () }

/-- An oracle whose first completion requests the get_rooms tool and whose
second completion succeeds with empty content. -/
def emptySecondOracle : AiOracle :=
  { first := .ok { toolCalls := ["get_rooms"], content := none },
    second := .ok (some "") }

/-- A context room list holding only the deluxe room. -/
def deluxeOnlyData : List Room := [toRoomDict
  { id := 1, name := "Deluxe Room", room_type := "deluxe", rack_rate := 5000,
    direct_rate := 4250, inventory := 10,
    description := "Spacious room with premium amenities",
    amenities := "WiFi, TV, AC, Mini-bar", max_occupancy := 2 }]

def suiteEntity : Entity :=
  { type := "room_type", value := "suite", confidence := pointNine }

/-- A QUERY_ROOMS context pre-populated with room data that the suite
entity filters down to nothing. -/
def suiteOnDeluxeCtx : ResponseContext :=
  { intent := .QUERY_ROOMS, entities := [suiteEntity],
    user_query := "any suites?", room_data := some deluxeOnlyData }

/-- A plain QUERY_ROOMS context with no entities and no pre-set data. -/
def roomsQueryCtx : ResponseContext :=
  { intent := Intent.QUERY_ROOMS, entities := [], user_query := "rooms",
    room_data := none }

/-- What the pipeline answers to the sold-out scenario input when the
suite inventory is zero: the generic listing of the other room types. -/
def soldOutScenarioReply : String :=
  "We have 3 room types available:\n\n**Standard Room** - ₹2,550/night (save ₹450!) â€¢ 15 available\n**Deluxe Room** - ₹4,250/night (save ₹750!) â€¢ 10 available\n**Executive Room** - ₹5,525/night (save ₹975!) â€¢ 8 available\n\nâœ¨ *All prices are 15% off OTA rates when you book direct!*"

/-! Theorems. First the lemmas equating the kernel-computable rational
operations with the field operations of ℚ. -/

theorem qSub_eq (a b : ℚ) : qSub a b = a - b := by
  unfold qSub
  have ha : ((a.den : ℚ)) ≠ 0 := by positivity
  have hb : ((b.den : ℚ)) ≠ 0 := by positivity
  rw [Rat.divInt_eq_div]
  conv_rhs => rw [← Rat.num_div_den a, ← Rat.num_div_den b]
  push_cast
  field_simp
  ring

theorem qMul_eq (a b : ℚ) : qMul a b = a * b := by
  unfold qMul
  have ha : ((a.den : ℚ)) ≠ 0 := by positivity
  have hb : ((b.den : ℚ)) ≠ 0 := by positivity
  rw [Rat.divInt_eq_div]
  conv_rhs => rw [← Rat.num_div_den a, ← Rat.num_div_den b]
  push_cast
  field_simp

theorem qDiv_eq (a b : ℚ) : qDiv a b = a / b := by
  unfold qDiv
  rw [Rat.divInt_eq_div]
  conv_rhs => rw [← Rat.num_div_den a, ← Rat.num_div_den b]
  push_cast
  rw [div_eq_mul_inv (a := (a.num : ℚ) / a.den), inv_div, div_mul_div_comm]

theorem scoreFrac_eq (m n : Nat) : scoreFrac m n = (m : ℚ) / (n : ℚ) := by
  unfold scoreFrac
  rw [Rat.divInt_eq_div]
  push_cast
  ring

theorem pointNine_eq : pointNine = (9 : ℚ) / 10 := by
  unfold pointNine
  rw [Rat.mkRat_eq_div]
  push_cast
  ring

/-! The Python max scan: it returns the first entry of maximal score. -/

theorem le_pyMaxStep_left (b y : Intent × ℚ) : b.2 ≤ (pyMaxStep b y).2 := by
  unfold pyMaxStep
  split
  · exact le_of_lt (by assumption)
  · exact le_refl _

theorem le_pyMaxStep_right (b y : Intent × ℚ) : y.2 ≤ (pyMaxStep b y).2 := by
  unfold pyMaxStep
  split
  · exact le_refl _
  · exact le_of_not_lt (by assumption)

theorem foldl_pyMaxStep_le (xs : List (Intent × ℚ)) (x : Intent × ℚ) :
    ∀ z ∈ x :: xs, z.2 ≤ (xs.foldl pyMaxStep x).2 := by
  induction xs generalizing x with
  | nil =>
    intro z hz
    rcases List.mem_cons.mp hz with rfl | hz
    · exact le_refl _
    · cases hz
  | cons y ys ih =>
    intro z hz
    have ihs := ih (pyMaxStep x y)
    rcases List.mem_cons.mp hz with rfl | hz
    · exact le_trans (le_pyMaxStep_left z y)
        (ihs _ (List.mem_cons_self _ _))
    · rcases List.mem_cons.mp hz with rfl | hz
      · exact le_trans (le_pyMaxStep_right x z)
          (ihs _ (List.mem_cons_self _ _))
      · exact ihs z (List.mem_cons_of_mem _ hz)

theorem foldl_pyMaxStep_first (xs : List (Intent × ℚ)) (x : Intent × ℚ) :
    ∃ l₁ l₂, x :: xs = l₁ ++ xs.foldl pyMaxStep x :: l₂ ∧
      (∀ y ∈ l₁, y.2 < (xs.foldl pyMaxStep x).2) ∧
      (∀ y ∈ l₂, y.2 ≤ (xs.foldl pyMaxStep x).2) := by
  induction xs generalizing x with
  | nil =>
    exact ⟨[], [], rfl, fun y hy => absurd hy (List.not_mem_nil y),
      fun y hy => absurd hy (List.not_mem_nil y)⟩
  | cons y ys ih =>
    have hfold : (y :: ys).foldl pyMaxStep x = ys.foldl pyMaxStep (pyMaxStep x y) := rfl
    by_cases hc : x.2 < y.2
    · have hstep : pyMaxStep x y = y := by unfold pyMaxStep; rw [if_pos hc]
      obtain ⟨l₁, l₂, heq, h₁, h₂⟩ := ih (pyMaxStep x y)
      rw [hstep] at heq h₁ h₂
      have hxr : x.2 < (ys.foldl pyMaxStep y).2 :=
        lt_of_lt_of_le hc (foldl_pyMaxStep_le ys y y (List.mem_cons_self _ _))
      refine ⟨x :: l₁, l₂, ?_, ?_, ?_⟩
      · rw [hfold, hstep]
        simpa using congrArg (x :: ·) heq
      · intro z hz
        rcases List.mem_cons.mp hz with rfl | hz
        · rw [hfold, hstep]; exact hxr
        · rw [hfold, hstep]; exact h₁ z hz
      · intro z hz
        rw [hfold, hstep]; exact h₂ z hz
    · have hstep : pyMaxStep x y = x := by unfold pyMaxStep; rw [if_neg hc]
      obtain ⟨l₁, l₂, heq, h₁, h₂⟩ := ih (pyMaxStep x y)
      rw [hstep] at heq h₁ h₂
      cases l₁ with
      | nil =>
        have hx : x = ys.foldl pyMaxStep x := (List.cons.injEq _ _ _ _ ▸ heq).1
        have hys : ys = l₂ := (List.cons.injEq _ _ _ _ ▸ heq).2
        refine ⟨[], y :: l₂, ?_, fun z hz => absurd hz (List.not_mem_nil z), ?_⟩
        · rw [hfold, hstep, List.nil_append, ← hx, ← hys]
        · intro z hz
          rcases List.mem_cons.mp hz with rfl | hz
          · rw [hfold, hstep, ← hx]; exact le_of_not_lt hc
          · rw [hfold, hstep]; exact h₂ z hz
      | cons a l₁t =>
        have hax : a = x := ((List.cons.injEq _ _ _ _).mp heq).1.symm
        have htail : ys = l₁t ++ ys.foldl pyMaxStep x :: l₂ :=
          ((List.cons.injEq _ _ _ _).mp heq).2
        have hxlt : x.2 < (ys.foldl pyMaxStep x).2 := by
          have := h₁ a (List.mem_cons_self _ _)
          rwa [hax] at this
        refine ⟨x :: y :: l₁t, l₂, ?_, ?_, ?_⟩
        · rw [hfold, hstep]
          simp only [List.cons_append]
          rw [← htail]
        · intro z hz
          rw [hfold, hstep]
          rcases List.mem_cons.mp hz with rfl | hz
          · exact hxlt
          · rcases List.mem_cons.mp hz with rfl | hz
            · exact lt_of_le_of_lt (le_of_not_lt hc) hxlt
            · exact h₁ z (List.mem_cons_of_mem _ hz)
        · intro z hz
          rw [hfold, hstep]; exact h₂ z hz

/-! The intent pattern table: keyed lookups and the absence of UNKNOWN. -/

theorem patternsFor_of_mem {q : Intent × List Regex} (hq : q ∈ intentPatterns) :
    patternsFor q.1 = q.2 := by
  fin_cases hq <;> rfl

theorem ne_unknown_of_mem {q : Intent × List Regex} (hq : q ∈ intentPatterns) :
    q.1 ≠ Intent.UNKNOWN := by
  fin_cases hq <;> decide

/-- What membership in the score list means: the intent is a scored one
(never UNKNOWN), its matched-pattern count is positive, and the recorded
confidence is exactly that count over the pattern count. -/
theorem intentScores_mem_spec (sr : Regex → Bool) {p : Intent × ℚ}
    (hp : p ∈ intentScores sr) :
    p.1 ≠ Intent.UNKNOWN ∧ 0 < matchedCountBy sr p.1 ∧
      matchedCountBy sr p.1 ≤ numPatterns p.1 ∧
      p.2 = (matchedCountBy sr p.1 : ℚ) / (numPatterns p.1 : ℚ) := by
  obtain ⟨q, hq, hf⟩ := List.mem_filterMap.mp hp
  simp only [intentScores] at hf
  by_cases hs : 0 < q.2.countP sr
  · rw [if_pos hs] at hf
    have hpq : p = (q.1, min (scoreFrac (q.2.countP sr) q.2.length) 1) :=
      (Option.some_inj.mp hf).symm
    have hpat : patternsFor q.1 = q.2 := patternsFor_of_mem hq
    have hcount : matchedCountBy sr p.1 = q.2.countP sr := by
      rw [hpq]; simp only [matchedCountBy, hpat]
    have hnum : numPatterns p.1 = q.2.length := by
      rw [hpq]; simp only [numPatterns, hpat]
    have hle : q.2.countP sr ≤ q.2.length := List.countP_le_length _
    have hlen : 0 < q.2.length := lt_of_lt_of_le hs hle
    have hfrac : scoreFrac (q.2.countP sr) q.2.length =
        (q.2.countP sr : ℚ) / (q.2.length : ℚ) := scoreFrac_eq _ _
    have hfle : (q.2.countP sr : ℚ) / (q.2.length : ℚ) ≤ 1 := by
      rw [div_le_one (by exact_mod_cast hlen)]
      exact_mod_cast hle
    refine ⟨?_, ?_, ?_, ?_⟩
    · rw [hpq]; exact ne_unknown_of_mem hq
    · rw [hcount]; exact hs
    · rw [hcount, hnum]; exact hle
    · rw [hcount, hnum, hpq]
      simp only [hfrac, min_eq_left hfle]
  · rw [if_neg hs] at hf
    cases hf

/-- The recognized intent is either the zero-evidence UNKNOWN case with an
empty score list, or a member of the score list. -/
theorem recognizeIntent_spec (sr : Regex → Bool) :
    (intentScores sr = [] ∧ recognizeIntent sr = (Intent.UNKNOWN, 0)) ∨
      recognizeIntent sr ∈ intentScores sr := by
  cases h : intentScores sr with
  | nil =>
    left
    refine ⟨rfl, ?_⟩
    unfold recognizeIntent
    rw [h]
  | cons x xs =>
    right
    have hr : recognizeIntent sr = xs.foldl pyMaxStep x := by
      unfold recognizeIntent
      rw [h]
    obtain ⟨l₁, l₂, heq, -, -⟩ := foldl_pyMaxStep_first xs x
    rw [hr, heq]
    exact List.mem_append_right l₁ (List.mem_cons_self _ _)

/-- C1: for every input text the classifier's confidence is the fraction
of the winning intent's patterns that match the lower-cased stripped
text; it lies in the interval from 0 to 1 and is 0 exactly when the
intent is UNKNOWN (intents with no matching pattern never win). -/
theorem c1_confidence_is_match_fraction (text : String) :
    0 ≤ (process text).confidence ∧ (process text).confidence ≤ 1 ∧
      ((process text).confidence = 0 ↔ (process text).intent = Intent.UNKNOWN) ∧
      ((process text).intent ≠ Intent.UNKNOWN →
        0 < matchedCount text (process text).intent ∧
        (process text).confidence =
          (matchedCount text (process text).intent : ℚ) /
            (numPatterns (process text).intent : ℚ)) := by
  have hpi : (process text).intent =
      (recognizeIntent (fun r => reSearch r (loweredChars text))).1 := rfl
  have hpc : (process text).confidence =
      (recognizeIntent (fun r => reSearch r (loweredChars text))).2 := rfl
  rcases recognizeIntent_spec (fun r => reSearch r (loweredChars text)) with
    ⟨-, hres⟩ | hmem
  · rw [hpi, hpc, hres]
    refine ⟨le_refl 0, zero_le_one, by simp, ?_⟩
    intro hne
    exact absurd rfl hne
  · obtain ⟨hne, hpos, hle, heqF⟩ := intentScores_mem_spec _ hmem
    have hcnt : matchedCount text (process text).intent =
        matchedCountBy (fun r => reSearch r (loweredChars text))
          (recognizeIntent (fun r => reSearch r (loweredChars text))).1 := by
      rw [hpi]; rfl
    have hfpos : 0 < (process text).confidence := by
      rw [hpc, heqF]
      apply div_pos
      · exact_mod_cast hpos
      · exact_mod_cast lt_of_lt_of_le hpos hle
    have hfle : (process text).confidence ≤ 1 := by
      rw [hpc, heqF, div_le_one (by exact_mod_cast lt_of_lt_of_le hpos hle)]
      exact_mod_cast hle
    refine ⟨le_of_lt hfpos, hfle, ?_, ?_⟩
    · constructor
      · intro h0
        exact absurd h0 (ne_of_gt hfpos)
      · intro hu
        rw [hpi] at hu
        exact absurd hu hne
    · intro hne2
      refine ⟨?_, ?_⟩
      · rw [hcnt]
        exact hpos
      · rw [hpc, heqF, hcnt, hpi]

/-- C2 counterexample: on this input the score list holds exactly GREETING
and QUERY_ROOMS, both at the maximal score one half, and the classifier
returns GREETING — the first of the two in the pattern-table insertion
order — although the Intent enumeration declares QUERY_ROOMS first, so
the claimed enumeration-order tie-break would return QUERY_ROOMS. -/
theorem c2_tie_breaks_to_greeting_not_query_rooms :
    intentScores (fun r => reSearch r (loweredChars tieText)) =
      [(Intent.GREETING, mkRat 1 2), (Intent.QUERY_ROOMS, mkRat 1 2)] ∧
    (process tieText).intent = Intent.GREETING ∧
    Intent.GREETING ≠ Intent.QUERY_ROOMS :=
  ⟨by decide, by decide, by decide⟩

/-- C2 amended: the classifier returns the first entry of maximal score in
the pattern-table insertion order (GREETING, GOODBYE, QUERY_ROOMS,
QUERY_PRICES, CHECK_AVAILABILITY, COMPARE_RATES, BOOK_ROOM, HELP): the
score list splits around the winner, with everything before it strictly
below the winner's score and everything after it at most the winner's
score. Determinism over repeated calls is immediate: the classifier is a
pure function of its input. -/
theorem c2_amended_first_maximal_in_table_order (sr : Regex → Bool)
    (h : intentScores sr ≠ []) :
    ∃ l₁ l₂, intentScores sr = l₁ ++ recognizeIntent sr :: l₂ ∧
      (∀ y ∈ l₁, y.2 < (recognizeIntent sr).2) ∧
      (∀ y ∈ l₂, y.2 ≤ (recognizeIntent sr).2) := by
  cases hs : intentScores sr with
  | nil => exact absurd hs h
  | cons x xs =>
    have hr : recognizeIntent sr = xs.foldl pyMaxStep x := by
      unfold recognizeIntent
      rw [hs]
    obtain ⟨l₁, l₂, heq, h₁, h₂⟩ := foldl_pyMaxStep_first xs x
    refine ⟨l₁, l₂, ?_, ?_, ?_⟩
    · rw [hr]
      exact heq
    · rw [hr]
      exact h₁
    · rw [hr]
      exact h₂

/-- C2 witness: the amended tie-break theorem applied at the concrete
matcher of the input hello, whose score list is nonempty. -/
theorem c2_amended_first_maximal_witness :
    ∃ l₁ l₂, intentScores helloMatcher = l₁ ++ recognizeIntent helloMatcher :: l₂ ∧
      (∀ y ∈ l₁, y.2 < (recognizeIntent helloMatcher).2) ∧
      (∀ y ∈ l₂, y.2 ≤ (recognizeIntent helloMatcher).2) :=
  c2_amended_first_maximal_in_table_order helloMatcher (by decide)

/-! C7: whitespace-only inputs. -/

theorem toLower_of_isPySpace {c : Char} (h : isPySpace c = true) :
    Char.toLower c = c := by
  simp only [isPySpace, Bool.or_eq_true, decide_eq_true_eq] at h
  rcases h with ((((rfl | rfl) | rfl) | rfl) | rfl) | rfl <;> decide

theorem map_toLower_of_space :
    ∀ l : Chars, l.all isPySpace = true → l.map Char.toLower = l := by
  intro l h
  induction l with
  | nil => rfl
  | cons a l ih =>
    rw [List.all_cons, Bool.and_eq_true] at h
    rw [List.map_cons, toLower_of_isPySpace h.1, ih h.2]

theorem stripL_of_space {l : Chars} (h : l.all isPySpace = true) :
    stripL l = [] := by
  unfold stripL
  have hd : l.dropWhile isPySpace = [] := by
    rw [List.dropWhile_eq_nil_iff]
    intro x hx
    exact List.all_eq_true.mp h x hx
  rw [hd]
  rfl

/-- C7: classification is total (the embedding is a function), and every
input that is empty or consists only of whitespace yields intent UNKNOWN,
confidence 0, and no entities, with the original text kept verbatim. -/
theorem c7_whitespace_gives_unknown (s : String) (h : s.data.all isPySpace = true) :
    process s = { intent := Intent.UNKNOWN, confidence := 0, entities := [],
                  original_text := s } := by
  have hlow : (pyLower s).data = s.data := congrArg String.data
    (congrArg String.mk (map_toLower_of_space s.data h))
  have ht : loweredChars s = [] := by
    unfold loweredChars pyStrip
    rw [show (String.mk (stripL (pyLower s).data)).data = stripL (pyLower s).data from rfl]
    rw [hlow]
    exact stripL_of_space h
  unfold process
  rw [ht]
  have h1 : recognizeIntent (fun r => reSearch r ([] : Chars)) = (Intent.UNKNOWN, 0) := by
    decide
  have h2 : extractEntities ([] : Chars) = [] := by decide
  simp only [h1, h2]

/-- C7 witness: the theorem applied at a three-space input. -/
theorem c7_whitespace_gives_unknown_witness :
    process "   " = { intent := Intent.UNKNOWN, confidence := 0, entities := [],
                      original_text := "   " } :=
  c7_whitespace_gives_unknown "   " (by decide)

/-- C10: the single mention deluxe room satisfies both the pattern for
deluxe room and the pattern for deluxe, and extraction appends one
entity per pattern match, so the result holds exactly two identical
room_type entities with canonical value deluxe and confidence 0.9. -/
theorem c10_overlapping_patterns_duplicate_entities :
    (process "deluxe room").entities =
      [{ type := "room_type", value := "deluxe", confidence := pointNine },
       { type := "room_type", value := "deluxe", confidence := pointNine }] ∧
    pointNine = (9 : ℚ) / 10 :=
  ⟨by decide, pointNine_eq⟩

/-! C9: the currency formatter. -/

theorem group3_chars : ∀ n (l : Chars), l.length ≤ n →
    ∀ c ∈ group3 l, c ∈ l ∨ c = ',' := by
  intro n
  induction n with
  | zero =>
    intro l hl c hc
    rw [List.length_eq_zero.mp (Nat.le_zero.mp hl)] at hc ⊢
    exact Or.inl hc
  | succ n ih =>
    intro l hl c hc
    match l with
    | [] => exact Or.inl hc
    | [a] => exact Or.inl hc
    | [a, b] => exact Or.inl hc
    | [a, b, c'] => exact Or.inl hc
    | a :: b :: c' :: d :: rest =>
      have hg : group3 (a :: b :: c' :: d :: rest) =
          a :: b :: c' :: ',' :: group3 (d :: rest) := rfl
      rw [hg] at hc
      rcases List.mem_cons.mp hc with rfl | hc
      · exact Or.inl (List.mem_cons_self _ _)
      rcases List.mem_cons.mp hc with rfl | hc
      · exact Or.inl (List.mem_cons_of_mem _ (List.mem_cons_self _ _))
      rcases List.mem_cons.mp hc with rfl | hc
      · exact Or.inl (List.mem_cons_of_mem _ (List.mem_cons_of_mem _ (List.mem_cons_self _ _)))
      rcases List.mem_cons.mp hc with rfl | hc
      · exact Or.inr rfl
      · have hlen : (d :: rest).length ≤ n := by
          simp only [List.length_cons] at hl ⊢
          omega
        rcases ih (d :: rest) hlen c hc with hin | hcm
        · exact Or.inl (by
            rcases List.mem_cons.mp hin with rfl | hin
            · exact List.mem_cons_of_mem _ (List.mem_cons_of_mem _
                (List.mem_cons_of_mem _ (List.mem_cons_self _ _)))
            · exact List.mem_cons_of_mem _ (List.mem_cons_of_mem _
                (List.mem_cons_of_mem _ (List.mem_cons_of_mem _ hin))))
        · exact Or.inr hcm

theorem group3_filter : ∀ n (l : Chars), l.length ≤ n → (∀ c ∈ l, c ≠ ',') →
    (group3 l).filter (fun c => !(c = ',')) = l := by
  intro n
  induction n with
  | zero =>
    intro l hl _
    rw [List.length_eq_zero.mp (Nat.le_zero.mp hl)]
    rfl
  | succ n ih =>
    intro l hl hfree
    have hkeep : ∀ c ∈ l, (fun c => !(c = ','))   c = true := by
      intro c hc
      simpa using hfree c hc
    match l, hfree, hkeep with
    | [], _, hkeep => rfl
    | [a], _, hkeep => simp [group3, List.filter, hkeep a (List.mem_cons_self _ _)]
    | [a, b], hfree, hkeep => simp [group3, List.filter_eq_self.mpr hkeep]
    | [a, b, c'], hfree, hkeep => simp [group3, List.filter_eq_self.mpr hkeep]
    | a :: b :: c' :: d :: rest, hfree, hkeep =>
      have hg : group3 (a :: b :: c' :: d :: rest) =
          a :: b :: c' :: ',' :: group3 (d :: rest) := rfl
      rw [hg]
      have ha := hkeep a (by simp)
      have hb := hkeep b (by simp)
      have hc' := hkeep c' (by simp)
      have hrest : (group3 (d :: rest)).filter (fun c => !(c = ',')) = d :: rest := by
        apply ih
        · simp only [List.length_cons] at hl ⊢
          omega
        · intro c hc
          exact hfree c (by
            exact List.mem_cons_of_mem _ (List.mem_cons_of_mem _
              (List.mem_cons_of_mem _ hc)))
      simp only [List.filter_cons]
      rw [if_pos ha, if_pos hb, if_pos hc']
      have hcomma : ((fun c => !(c = ',')) ',') = false := by decide
      rw [if_neg (by simp)]
      rw [hrest]

theorem decDigitsAux_lt : ∀ f n, ∀ d ∈ decDigitsAux f n, d < 10 := by
  intro f
  induction f with
  | zero => intro n d hd; simp [decDigitsAux] at hd
  | succ f ih =>
    intro n d hd
    match n with
    | 0 => simp [decDigitsAux] at hd
    | m + 1 =>
      rcases List.mem_cons.mp hd with rfl | hd
      · exact Nat.mod_lt _ (by norm_num)
      · exact ih _ d hd

theorem digitChar_isDigit {d : Nat} (h : d < 10) :
    (Nat.digitChar d).isDigit = true := by
  interval_cases d <;> decide

theorem decChars_digits {n : Nat} : ∀ c ∈ decChars n, c.isDigit = true := by
  intro c hc
  unfold decChars at hc
  by_cases h0 : n = 0
  · rw [if_pos h0] at hc
    rcases List.mem_singleton.mp hc with rfl
    decide
  · rw [if_neg h0] at hc
    rw [List.mem_reverse] at hc
    obtain ⟨d, hd, rfl⟩ := List.mem_map.mp hc
    exact digitChar_isDigit (decDigitsAux_lt n n d hd)

theorem isDigit_ne_comma {c : Char} (h : c.isDigit = true) : c ≠ ',' := by
  intro hc
  rw [hc] at h
  cases h

theorem pyRound_nonneg {q : ℚ} (hq : 0 ≤ q) : 0 ≤ pyRound q := by
  have hnum : 0 ≤ q.num := Rat.num_nonneg.mpr hq
  have hden : (0 : Int) ≤ (q.den : Int) := Int.ofNat_nonneg _
  have hf : 0 ≤ Int.ediv q.num (q.den : Int) := Int.ediv_nonneg hnum hden
  simp only [pyRound]
  split
  · exact hf
  split
  · omega
  split
  · exact hf
  · omega

theorem commaGroup_chars {n : Nat} :
    ∀ c ∈ (commaGroup n).data, c.isDigit = true ∨ c = ',' := by
  intro c hc
  have hdata : (commaGroup n).data = ((group3 (decChars n).reverse).reverse) := rfl
  rw [hdata, List.mem_reverse] at hc
  rcases group3_chars (decChars n).reverse.length _ (le_refl _) c hc with hin | hcm
  · rw [List.mem_reverse] at hin
    exact Or.inl (decChars_digits c hin)
  · exact Or.inr hcm

/-- C9: the shared currency formatter renders the configured symbol first,
then the value rounded to zero decimal places (digits and thousands
separators only, never a decimal point), commas grouping the decimal
digits so that dropping them recovers the plain decimal rendering; in
particular 4250.0 renders exactly as the spec's example. -/
theorem c9_currency_formatting :
    format_price 4250 = "₹4,250" ∧
    (∀ q : ℚ, (format_price q).data.head? = some '₹') ∧
    (∀ q : ℚ, 0 ≤ q → ∀ c ∈ (format_price q).data.tail, c.isDigit = true ∨ c = ',') ∧
    (∀ n : Nat, (commaGroup n).data.filter (fun c => !(c = ',')) = decChars n) := by
  refine ⟨by decide, ?_, ?_, ?_⟩
  · intro q
    rfl
  · intro q hq c hc
    have hr : ¬ (pyRound q < 0) := not_lt.mpr (pyRound_nonneg hq)
    have hdata : (format_price q).data =
        '₹' :: (commaGroup (pyRound q).toNat).data := by
      simp only [format_price]
      rw [if_neg hr]
      rfl
    rw [hdata] at hc
    exact commaGroup_chars c hc
  · intro n
    have hfree : ∀ c ∈ (decChars n).reverse, c ≠ ',' := by
      intro c hcm
      rw [List.mem_reverse] at hcm
      exact isDigit_ne_comma (decChars_digits c hcm)
    have hdata : (commaGroup n).data = ((group3 (decChars n).reverse).reverse) := rfl
    rw [hdata, List.filter_reverse,
      group3_filter (decChars n).reverse.length _ (le_refl _) hfree,
      List.reverse_reverse]

/-- C3: the end-to-end sold-out scenario. With the suite inventory at
zero, the turn for the spec's input answers the generic room listing
(get_rooms drops zero-inventory rooms before the handler can see them,
and the input does not even classify as CHECK_AVAILABILITY or yield a
suite entity, since the patterns miss the plural suites): the reply
never states sold out and never mentions the suite at all. -/
theorem c3_soldout_scenario_reply_eval :
    get_agent_response seedRoomsSuiteSoldOut sfEmpty failingOracle false availQuery none =
      some soldOutScenarioReply ∧
    occursIn "sold out".data soldOutScenarioReply.data = false ∧
    occursIn "uite".data soldOutScenarioReply.data = false :=
  ⟨by decide, by decide, by decide⟩

/-- C4 counterexample: on the AI path, when the model requests the
get_rooms tool and the second completion comes back with empty content,
the turn returns that empty string as the chat response, while the
rule-based generator on the same context returns the greeting template:
the claimed unconditional fallback does not cover the second
completion's empty content. -/
theorem c4_empty_second_completion_escapes :
    get_agent_response seedRooms sfEmpty emptySecondOracle true "hello" (some true) =
      some "" ∧
    (generate_response seedRooms sfEmpty
      { intent := Intent.GREETING, entities := [], user_query := "hello",
        room_data := none }).1 ≠ "" :=
  ⟨by decide, by decide⟩

/-- C4 amended: on the AI path the fallback to the rule-based generator
on the identical context is taken when the first completion raises, when
the second completion after a get_rooms tool call raises, and when a
first completion that requested no usable tool has empty content; but
the content of the second completion is returned as it is, empty or not
(the counterexample). -/
theorem c4_amended_fallback_on_failures (db : List RoomRow)
    (search_faqs : String → List Faq) (oracle : AiOracle) (text : String)
    (h : oracle.first = .error () ∨
      (∃ msg, oracle.first = .ok msg ∧ msg.toolCalls.head? = some "get_rooms" ∧
        oracle.second = .error ()) ∨
      (∃ msg, oracle.first = .ok msg ∧ msg.toolCalls.head? ≠ some "get_rooms" ∧
        truthyContent msg.content = false)) :
    get_agent_response db search_faqs oracle true text (some true) =
      some (generate_response db search_faqs
        { intent := (process text).intent, entities := (process text).entities,
          user_query := text,
          room_data := if fetchIntents.contains (process text).intent
            then some (get_rooms db true) else none }).1 := by
  have hstep : get_agent_response db search_faqs oracle true text (some true) =
      generate_ai_response db search_faqs oracle (process text)
        (if fetchIntents.contains (process text).intent
          then some (get_rooms db true) else none)
        (process text).entities := rfl
  have hfb : fallback_response db search_faqs (process text) (process text).entities
      (if fetchIntents.contains (process text).intent
        then some (get_rooms db true) else none) =
      (generate_response db search_faqs
        { intent := (process text).intent, entities := (process text).entities,
          user_query := text,
          room_data := if fetchIntents.contains (process text).intent
            then some (get_rooms db true) else none }).1 := rfl
  rw [hstep]
  rcases h with h1 | ⟨msg, hfirst, hhead, hsecond⟩ | ⟨msg, hfirst, hhead, hcont⟩
  · unfold generate_ai_response
    rw [h1]
    exact congrArg some hfb
  · unfold generate_ai_response
    cases htc : msg.toolCalls with
    | nil => rw [htc] at hhead; cases hhead
    | cons a l =>
      rw [htc] at hhead
      have ha : a = "get_rooms" := by
        simpa using hhead
      subst ha
      simp only [hfirst, htc, hsecond]
      rw [hfb]
      rw [if_pos trivial]
  · unfold generate_ai_response
    cases htc : msg.toolCalls with
    | nil =>
      simp only [hfirst, htc, hcont, Bool.false_eq_true, if_false]
      rw [hfb]
    | cons a l =>
      rw [htc] at hhead
      have ha : ¬ (a = "get_rooms") := by
        intro hrfl
        exact hhead (by rw [hrfl]; rfl)
      simp only [hfirst, htc, if_neg ha, hcont, Bool.false_eq_true, if_false]
      rw [hfb]

/-- C4 witness: the amended theorem at a failing first completion on the
input hello. -/
theorem c4_amended_fallback_witness :
    get_agent_response seedRooms sfEmpty failingOracle true "hello" (some true) =
      some (generate_response seedRooms sfEmpty
        { intent := (process "hello").intent, entities := (process "hello").entities,
          user_query := "hello",
          room_data := if fetchIntents.contains (process "hello").intent
            then some (get_rooms seedRooms true) else none }).1 :=
  c4_amended_fallback_on_failures seedRooms sfEmpty failingOracle "hello" (Or.inl rfl)

/-! C5: the room-query handler. Substring lemmas for occursIn first. -/

theorem isPrefixOf_append_self (p t : Chars) : p.isPrefixOf (p ++ t) = true := by
  induction p with
  | nil => simp [List.isPrefixOf]
  | cons c p ih => simp [List.isPrefixOf, ih]

theorem occursIn_self_append (p t : Chars) : occursIn p (p ++ t) = true := by
  cases p with
  | nil =>
    cases t with
    | nil => rfl
    | cons c rest => rfl
  | cons c p =>
    have h := isPrefixOf_append_self (c :: p) t
    simp [occursIn, h]

theorem occursIn_append_left (p s t : Chars) (h : occursIn p t = true) :
    occursIn p (s ++ t) = true := by
  induction s with
  | nil => simpa using h
  | cons c s ih => simp [occursIn, ih]

/-- The first characters of the three room-query replies differ, so the
replies of different branches are never confused. -/
theorem singleRoomResponse_head (room : Room) :
    (singleRoomResponse room).data.head? = some 'G' := rfl

theorem comparisonResponse_head (rooms : List Room) :
    (comparisonResponse rooms).data.head? = some 'W' := rfl

theorem apologyNoRooms_head : apologyNoRooms.data.head? = some 'I' := rfl

/-- C5 counterexample: a QUERY_ROOMS context whose pre-populated room data
the suite entity filters down to nothing is not answered with the
apology; the reply is the bulleted comparison claiming zero room
types. -/
theorem c5_filtered_empty_is_not_apology :
    filterByType suiteOnDeluxeCtx.entities
      (resolveRooms seedRooms suiteOnDeluxeCtx.room_data) = [] ∧
    (generate_response seedRooms sfEmpty suiteOnDeluxeCtx).1 = comparisonResponse [] ∧
    (generate_response seedRooms sfEmpty suiteOnDeluxeCtx).1 ≠ apologyNoRooms :=
  ⟨by decide, by decide, by decide⟩

/-- C5 amended: the room-query handler fetches only when the context
carries no (nonempty) room data; the apology is the reply exactly when
the room data is empty before the room-type filter; exactly one room
left after filtering gives the single-room pitch, which contains both
formatted prices and the formatted savings; any other filter outcome —
including zero rooms — gives the bulleted comparison of the filtered
list. -/
theorem c5_amended_room_query_behavior (db : List RoomRow)
    (search_faqs : String → List Faq) (ctx : ResponseContext)
    (h : ctx.intent = Intent.QUERY_ROOMS) :
    (∀ l, ctx.room_data = some l → l ≠ [] → resolveRooms db ctx.room_data = l) ∧
    ((generate_response db search_faqs ctx).1 = apologyNoRooms ↔
      resolveRooms db ctx.room_data = []) ∧
    (∀ room, filterByType ctx.entities (resolveRooms db ctx.room_data) = [room] →
      resolveRooms db ctx.room_data ≠ [] →
      (generate_response db search_faqs ctx).1 = singleRoomResponse room ∧
      occursIn (format_price room.rack_rate).data (singleRoomResponse room).data = true ∧
      occursIn (format_price room.direct_rate).data (singleRoomResponse room).data = true ∧
      occursIn (format_price (room.rack_rate - room.direct_rate)).data
        (singleRoomResponse room).data = true) ∧
    ((filterByType ctx.entities (resolveRooms db ctx.room_data)).length ≠ 1 →
      resolveRooms db ctx.room_data ≠ [] →
      (generate_response db search_faqs ctx).1 =
        comparisonResponse (filterByType ctx.entities (resolveRooms db ctx.room_data))) := by
  have hgen : generate_response db search_faqs ctx = handle_room_query db ctx := by
    obtain ⟨i, es, uq, rd⟩ := ctx
    simp only at h
    subst h
    rfl
  rw [hgen]
  refine ⟨?_, ?_, ?_, ?_⟩
  · intro l hl hne
    simp only [resolveRooms, hl]
    rw [if_neg (by simpa using hne)]
  · constructor
    · intro heq
      by_contra hne
      have hfalse : (resolveRooms db ctx.room_data).isEmpty = false := by
        simpa using hne
      have hred : handle_room_query db ctx =
          (match filterByType ctx.entities (resolveRooms db ctx.room_data) with
            | [room] => (singleRoomResponse room,
                { ctx with room_data := some (filterByType ctx.entities (resolveRooms db ctx.room_data)) })
            | _ => (comparisonResponse (filterByType ctx.entities (resolveRooms db ctx.room_data)),
                { ctx with room_data := some (filterByType ctx.entities (resolveRooms db ctx.room_data)) })) := by
        simp only [handle_room_query, hfalse, Bool.false_eq_true, if_false]
      rw [hred] at heq
      rcases hm : filterByType ctx.entities (resolveRooms db ctx.room_data) with - | ⟨room, rest⟩
      · rw [hm] at heq
        have := congrArg (fun s => s.data.head?) heq
        simp only [comparisonResponse_head, apologyNoRooms_head] at this
        cases this
      · rcases rest with - | ⟨room2, rest2⟩
        · rw [hm] at heq
          have := congrArg (fun s => s.data.head?) heq
          simp only [singleRoomResponse_head, apologyNoRooms_head] at this
          cases this
        · rw [hm] at heq
          have := congrArg (fun s => s.data.head?) heq
          simp only [comparisonResponse_head, apologyNoRooms_head] at this
          cases this
    · intro hempty
      simp only [handle_room_query, hempty, List.isEmpty_nil, if_true]
  · intro room hf hne
    have hfalse : (resolveRooms db ctx.room_data).isEmpty = false := by
      simpa using hne
    have hres : (handle_room_query db ctx).1 = singleRoomResponse room := by
      simp only [handle_room_query, hfalse, Bool.false_eq_true, if_false, hf]
    refine ⟨hres, ?_, ?_, ?_⟩
    · show occursIn (format_price room.rack_rate).data (singleRoomResponse room).data = true
      simp only [singleRoomResponse, show ∀ x y : String, (x ++ y).data = x.data ++ y.data
        from fun x y => rfl, List.append_assoc]
      apply occursIn_append_left
      apply occursIn_append_left
      apply occursIn_append_left
      apply occursIn_append_left
      apply occursIn_append_left
      exact occursIn_self_append _ _
    · simp only [singleRoomResponse, show ∀ x y : String, (x ++ y).data = x.data ++ y.data
        from fun x y => rfl, List.append_assoc]
      apply occursIn_append_left
      apply occursIn_append_left
      apply occursIn_append_left
      apply occursIn_append_left
      apply occursIn_append_left
      apply occursIn_append_left
      apply occursIn_append_left
      exact occursIn_self_append _ _
    · rw [← qSub_eq]
      simp only [singleRoomResponse, show ∀ x y : String, (x ++ y).data = x.data ++ y.data
        from fun x y => rfl, List.append_assoc]
      apply occursIn_append_left
      apply occursIn_append_left
      apply occursIn_append_left
      apply occursIn_append_left
      apply occursIn_append_left
      apply occursIn_append_left
      apply occursIn_append_left
      apply occursIn_append_left
      apply occursIn_append_left
      apply occursIn_append_left
      apply occursIn_append_left
      exact occursIn_self_append _ _
  · intro hlen hne
    have hfalse : (resolveRooms db ctx.room_data).isEmpty = false := by
      simpa using hne
    rcases hm : filterByType ctx.entities (resolveRooms db ctx.room_data) with - | ⟨room, rest⟩
    · simp only [handle_room_query, hfalse, Bool.false_eq_true, if_false, hm]
    · rcases rest with - | ⟨room2, rest2⟩
      · rw [hm] at hlen
        simp at hlen
      · simp only [handle_room_query, hfalse, Bool.false_eq_true, if_false, hm]

/-- C5 witness: the amended theorem at a concrete QUERY_ROOMS context with
no pre-set room data. -/
theorem c5_amended_room_query_witness :
    (∀ l, roomsQueryCtx.room_data = some l → l ≠ [] →
      resolveRooms seedRooms roomsQueryCtx.room_data = l) ∧
    ((generate_response seedRooms sfEmpty roomsQueryCtx).1 = apologyNoRooms ↔
      resolveRooms seedRooms roomsQueryCtx.room_data = []) ∧
    (∀ room, filterByType roomsQueryCtx.entities
        (resolveRooms seedRooms roomsQueryCtx.room_data) = [room] →
      resolveRooms seedRooms roomsQueryCtx.room_data ≠ [] →
      (generate_response seedRooms sfEmpty roomsQueryCtx).1 = singleRoomResponse room ∧
      occursIn (format_price room.rack_rate).data (singleRoomResponse room).data = true ∧
      occursIn (format_price room.direct_rate).data (singleRoomResponse room).data = true ∧
      occursIn (format_price (room.rack_rate - room.direct_rate)).data
        (singleRoomResponse room).data = true) ∧
    ((filterByType roomsQueryCtx.entities
        (resolveRooms seedRooms roomsQueryCtx.room_data)).length ≠ 1 →
      resolveRooms seedRooms roomsQueryCtx.room_data ≠ [] →
      (generate_response seedRooms sfEmpty roomsQueryCtx).1 =
        comparisonResponse (filterByType roomsQueryCtx.entities
          (resolveRooms seedRooms roomsQueryCtx.room_data))) :=
  c5_amended_room_query_behavior seedRooms sfEmpty roomsQueryCtx rfl

/-! C8: idempotence of generate_response. -/

/-- Resolving already-resolved room data changes nothing: a nonempty
result is kept, and an empty result only ever comes from an empty fetch,
which refetching reproduces. -/
theorem resolveRooms_idem (db : List RoomRow) (x : Option (List Room)) :
    resolveRooms db (some (resolveRooms db x)) = resolveRooms db x := by
  rcases hr : resolveRooms db x with - | ⟨a, l⟩
  · have hG : get_rooms db true = [] := by
      cases x with
      | none => exact hr
      | some l =>
        by_cases hl : l.isEmpty
        · simpa [resolveRooms, hl] using hr
        · exfalso
          have hnil : l = [] := by simpa [resolveRooms, hl] using hr
          rw [hnil] at hl
          simp at hl
    simp [resolveRooms, hG]
  · simp [resolveRooms]

theorem handle_price_query_state (db : List RoomRow) (ctx : ResponseContext) :
    (handle_price_query db ctx).2 =
      { ctx with room_data := some (resolveRooms db ctx.room_data) } := by
  unfold handle_price_query
  rcases hh : (roomTypeEntities ctx.entities).head? with - | e
  · simp only [hh]
  · rcases hf : (resolveRooms db ctx.room_data).filter
        (fun rm => nameHasType e.value rm.name) with - | ⟨a, l⟩
    · simp only [hh, hf]
    · simp only [hh, hf]

theorem handle_price_query_congr (db : List RoomRow) (c1 c2 : ResponseContext)
    (he : c2.entities = c1.entities)
    (hr : resolveRooms db c2.room_data = resolveRooms db c1.room_data) :
    (handle_price_query db c2).1 = (handle_price_query db c1).1 := by
  unfold handle_price_query
  rw [he, hr]
  rcases hh : (roomTypeEntities c1.entities).head? with - | e
  · simp only [hh]
  · rcases hf : (resolveRooms db c1.room_data).filter
        (fun rm => nameHasType e.value rm.name) with - | ⟨a, l⟩
    · simp only [hh, hf]
    · simp only [hh, hf]

theorem handle_availability_state (db : List RoomRow) (ctx : ResponseContext) :
    (handle_availability db ctx).2 =
      { ctx with room_data := some (resolveRooms db ctx.room_data) } := by
  unfold handle_availability
  rcases hh : (roomTypeEntities ctx.entities).head? with - | e
  · by_cases ha : ((resolveRooms db ctx.room_data).filter
        (fun x => 0 < x.inventory)).isEmpty
    · simp only [hh, ha, if_true]
    · simp only [hh, ha, Bool.false_eq_true, if_false]
  · rcases hf : (resolveRooms db ctx.room_data).filter
        (fun rm => nameHasType e.value rm.name) with - | ⟨a, l⟩
    · by_cases ha : ((resolveRooms db ctx.room_data).filter
          (fun x => 0 < x.inventory)).isEmpty
      · simp only [hh, hf, ha, if_true]
      · simp only [hh, hf, ha, Bool.false_eq_true, if_false]
    · by_cases hinv : 0 < a.inventory
      · simp only [hh, hf, hinv, if_true]
      · simp only [hh, hf, hinv, if_false]

theorem handle_availability_congr (db : List RoomRow) (c1 c2 : ResponseContext)
    (he : c2.entities = c1.entities)
    (hr : resolveRooms db c2.room_data = resolveRooms db c1.room_data) :
    (handle_availability db c2).1 = (handle_availability db c1).1 := by
  unfold handle_availability
  rw [he, hr]
  rcases hh : (roomTypeEntities c1.entities).head? with - | e
  · by_cases ha : ((resolveRooms db c1.room_data).filter
        (fun x => 0 < x.inventory)).isEmpty
    · simp only [hh, ha, if_true]
    · simp only [hh, ha, Bool.false_eq_true, if_false]
  · rcases hf : (resolveRooms db c1.room_data).filter
        (fun rm => nameHasType e.value rm.name) with - | ⟨a, l⟩
    · by_cases ha : ((resolveRooms db c1.room_data).filter
          (fun x => 0 < x.inventory)).isEmpty
      · simp only [hh, hf, ha, if_true]
      · simp only [hh, hf, ha, Bool.false_eq_true, if_false]
    · by_cases hinv : 0 < a.inventory
      · simp only [hh, hf, hinv, if_true]
      · simp only [hh, hf, hinv, if_false]

theorem handle_rate_comparison_state (db : List RoomRow) (ctx : ResponseContext) :
    (handle_rate_comparison db ctx).2 =
      { ctx with room_data := some (resolveRooms db ctx.room_data) } := rfl

theorem handle_rate_comparison_congr (db : List RoomRow) (c1 c2 : ResponseContext)
    (hr : resolveRooms db c2.room_data = resolveRooms db c1.room_data) :
    (handle_rate_comparison db c2).1 = (handle_rate_comparison db c1).1 := by
  unfold handle_rate_comparison
  rw [hr]

theorem handle_booking_state (db : List RoomRow) (ctx : ResponseContext) :
    (handle_booking db ctx).2 =
      { ctx with room_data := some (resolveRooms db ctx.room_data) } := by
  unfold handle_booking
  rcases hh : (roomTypeEntities ctx.entities).head? with - | e
  · simp only [hh]
  · rcases hf : (resolveRooms db ctx.room_data).filter
        (fun rm => nameHasType e.value rm.name) with - | ⟨a, l⟩
    · simp only [hh, hf, resolveRooms_idem]
    · simp only [hh, hf]

theorem handle_booking_congr (db : List RoomRow) (c1 c2 : ResponseContext)
    (he : c2.entities = c1.entities)
    (hr : resolveRooms db c2.room_data = resolveRooms db c1.room_data) :
    (handle_booking db c2).1 = (handle_booking db c1).1 := by
  unfold handle_booking
  rw [he, hr]
  rcases hh : (roomTypeEntities c1.entities).head? with - | e
  · simp only [hh]
  · rcases hf : (resolveRooms db c1.room_data).filter
        (fun rm => nameHasType e.value rm.name) with - | ⟨a, l⟩
    · simp only [hh, hf]
    · simp only [hh, hf]

theorem handle_help_state (sf : String → List Faq) (ctx : ResponseContext) :
    (handle_help sf ctx).2 = ctx := by
  unfold handle_help
  rcases hf : findFaqs sf (pyLower ctx.user_query) faqKeywords with - | ⟨faq, rest⟩
  · simp only [hf]
  · simp only [hf]

theorem generate_eq_greeting (db : List RoomRow) (sf : String → List Faq)
    (c : ResponseContext) (h : c.intent = Intent.GREETING) :
    generate_response db sf c = handle_greeting c := by
  unfold generate_response
  simp only [h]

theorem generate_eq_goodbye (db : List RoomRow) (sf : String → List Faq)
    (c : ResponseContext) (h : c.intent = Intent.GOODBYE) :
    generate_response db sf c = handle_goodbye c := by
  unfold generate_response
  simp only [h]

theorem generate_eq_help (db : List RoomRow) (sf : String → List Faq)
    (c : ResponseContext) (h : c.intent = Intent.HELP) :
    generate_response db sf c = handle_help sf c := by
  unfold generate_response
  simp only [h]

theorem generate_eq_rooms (db : List RoomRow) (sf : String → List Faq)
    (c : ResponseContext) (h : c.intent = Intent.QUERY_ROOMS) :
    generate_response db sf c = handle_room_query db c := by
  unfold generate_response
  simp only [h]

theorem generate_eq_prices (db : List RoomRow) (sf : String → List Faq)
    (c : ResponseContext) (h : c.intent = Intent.QUERY_PRICES) :
    generate_response db sf c = handle_price_query db c := by
  unfold generate_response
  simp only [h]

theorem generate_eq_avail (db : List RoomRow) (sf : String → List Faq)
    (c : ResponseContext) (h : c.intent = Intent.CHECK_AVAILABILITY) :
    generate_response db sf c = handle_availability db c := by
  unfold generate_response
  simp only [h]

theorem generate_eq_compare (db : List RoomRow) (sf : String → List Faq)
    (c : ResponseContext) (h : c.intent = Intent.COMPARE_RATES) :
    generate_response db sf c = handle_rate_comparison db c := by
  unfold generate_response
  simp only [h]

theorem generate_eq_book (db : List RoomRow) (sf : String → List Faq)
    (c : ResponseContext) (h : c.intent = Intent.BOOK_ROOM) :
    generate_response db sf c = handle_booking db c := by
  unfold generate_response
  simp only [h]

theorem generate_eq_unknown (db : List RoomRow) (sf : String → List Faq)
    (c : ResponseContext) (h : c.intent = Intent.UNKNOWN) :
    generate_response db sf c = handle_unknown c := by
  unfold generate_response
  simp only [h]

theorem filter_self_idem {α : Type} (p : α → Bool) (l : List α) :
    (l.filter p).filter p = l.filter p := by
  induction l with
  | nil => rfl
  | cons a l ih =>
    by_cases ha : p a
    · simp [List.filter_cons, ha, ih]
    · simp [List.filter_cons, ha, ih]

theorem filterByType_idem (es : List Entity) (l : List Room) :
    filterByType es (filterByType es l) = filterByType es l := by
  unfold filterByType
  rcases hh : (roomTypeEntities es).head? with - | e
  · simp only [hh]
  · simp only [hh]
    exact filter_self_idem _ l

/-- The room-query handler is idempotent from a context whose room data
is absent or empty before the call. -/
theorem handle_room_query_idem_of_falsy (db : List RoomRow) (ctx : ResponseContext)
    (h : ctx.room_data = none ∨ ctx.room_data = some []) :
    (handle_room_query db (handle_room_query db ctx).2).1 =
      (handle_room_query db ctx).1 := by
  have hres : resolveRooms db ctx.room_data = get_rooms db true := by
    rcases h with h | h <;> simp [resolveRooms, h]
  by_cases hG : (get_rooms db true).isEmpty
  · have hfirst : handle_room_query db ctx =
        (apologyNoRooms, { ctx with room_data := some (get_rooms db true) }) := by
      unfold handle_room_query
      simp only [hres, hG, if_true]
    rw [hfirst]
    unfold handle_room_query
    by_cases hGnil : get_rooms db true = []
    · simp only [resolveRooms, hGnil, List.isEmpty_nil, if_true, hG]
    · exfalso
      exact hGnil (List.isEmpty_iff.mp hG)
  · have hneb : (resolveRooms db ctx.room_data).isEmpty = false := by
      rw [hres]
      exact Bool.eq_false_iff.mpr hG
    rcases hm : filterByType ctx.entities (resolveRooms db ctx.room_data) with - | ⟨room, rest⟩
    · -- the filter leaves nothing: the first reply is the comparison of the
      -- empty list and the context keeps the empty list, so the second call
      -- refetches and filters to nothing again
      have hfirst : handle_room_query db ctx =
          (comparisonResponse [], { ctx with room_data := some [] }) := by
        unfold handle_room_query
        simp only [hneb, Bool.false_eq_true, if_false, hm]
      rw [hfirst]
      unfold handle_room_query
      have hres2 : resolveRooms db (some ([] : List Room)) = get_rooms db true := by
        simp [resolveRooms]
      have hGne : (get_rooms db true).isEmpty = false := Bool.eq_false_iff.mpr hG
      have hm2 : filterByType ctx.entities (get_rooms db true) = [] := by
        rw [← hres]
        exact hm
      simp only [hres2, hGne, Bool.false_eq_true, if_false, hm2]
    · rcases rest with - | ⟨room2, rest2⟩
      · -- exactly one room: the context keeps that singleton and the second
        -- call filters it to itself
        have hfirst : handle_room_query db ctx =
            (singleRoomResponse room, { ctx with room_data := some [room] }) := by
          unfold handle_room_query
          simp only [hneb, Bool.false_eq_true, if_false, hm]
        rw [hfirst]
        unfold handle_room_query
        have hres2 : resolveRooms db (some [room]) = [room] := by
          simp [resolveRooms]
        have hm2 : filterByType ctx.entities [room] = [room] := by
          have hidem := filterByType_idem ctx.entities (resolveRooms db ctx.room_data)
          rw [hm] at hidem
          exact hidem
        simp only [hres2, List.isEmpty_cons, Bool.false_eq_true, if_false, hm2]
      · -- two or more rooms: the same shape with the longer filtered list
        have hfirst : handle_room_query db ctx =
            (comparisonResponse (room :: room2 :: rest2),
              { ctx with room_data := some (room :: room2 :: rest2) }) := by
          unfold handle_room_query
          simp only [hneb, Bool.false_eq_true, if_false, hm]
        rw [hfirst]
        unfold handle_room_query
        have hres2 : resolveRooms db (some (room :: room2 :: rest2)) =
            room :: room2 :: rest2 := by
          simp [resolveRooms]
        have hm2 : filterByType ctx.entities (room :: room2 :: rest2) =
            room :: room2 :: rest2 := by
          have hidem := filterByType_idem ctx.entities (resolveRooms db ctx.room_data)
          rw [hm] at hidem
          exact hidem
        simp only [hres2, List.isEmpty_cons, Bool.false_eq_true, if_false, hm2]

/-- C8 counterexample: a QUERY_ROOMS context pre-populated with only the
deluxe room and carrying a suite entity. The first call filters the data
to nothing and answers the zero-room comparison; it leaves the empty
list in the context, so the second call refetches from the store, now
finds the suite, and answers the single-room suite pitch instead. -/
theorem c8_second_call_differs_on_prefilled :
    (generate_response seedRooms sfEmpty
        ((generate_response seedRooms sfEmpty suiteOnDeluxeCtx).2)).1 ≠
      (generate_response seedRooms sfEmpty suiteOnDeluxeCtx).1 :=
  by decide

/-- C8 amended: calling generate twice in succession (the second call on
the context the first call leaves behind, the store unchanged) yields
identical replies whenever the context's room data was absent or empty
before the first call, or the intent is anything but QUERY_ROOMS; for
QUERY_ROOMS over pre-populated room data the in-place filter of the
first call can change the second reply (the counterexample). -/
theorem c8_amended_idempotent_generate (db : List RoomRow)
    (sf : String → List Faq) (ctx : ResponseContext)
    (h : ctx.room_data = none ∨ ctx.room_data = some [] ∨
      ctx.intent ≠ Intent.QUERY_ROOMS) :
    (generate_response db sf ((generate_response db sf ctx).2)).1 =
      (generate_response db sf ctx).1 := by
  rcases hint : ctx.intent with - | - | - | - | - | - | - | - | -
  case QUERY_ROOMS =>
    have hfalsy : ctx.room_data = none ∨ ctx.room_data = some [] := by
      rcases h with h | h | h
      · exact Or.inl h
      · exact Or.inr h
      · exact absurd hint h
    have hstate : (handle_room_query db ctx).2.intent = ctx.intent := by
      unfold handle_room_query
      by_cases hE : (resolveRooms db ctx.room_data).isEmpty
      · simp only [hE, if_true]
      · have hEb : (resolveRooms db ctx.room_data).isEmpty = false :=
          Bool.eq_false_iff.mpr hE
        rcases hm : filterByType ctx.entities (resolveRooms db ctx.room_data) with
          - | ⟨room, rest⟩
        · simp only [hEb, Bool.false_eq_true, if_false, hm]
        · rcases rest with - | ⟨room2, rest2⟩
          · simp only [hEb, Bool.false_eq_true, if_false, hm]
          · simp only [hEb, Bool.false_eq_true, if_false, hm]
    rw [generate_eq_rooms db sf ctx hint]
    rw [generate_eq_rooms db sf ((handle_room_query db ctx).2) (hstate.trans hint)]
    exact handle_room_query_idem_of_falsy db ctx hfalsy
  case QUERY_PRICES =>
    rw [generate_eq_prices db sf ctx hint]
    rw [handle_price_query_state db ctx]
    rw [generate_eq_prices db sf
      { ctx with room_data := some (resolveRooms db ctx.room_data) } hint]
    exact handle_price_query_congr db ctx _ rfl (resolveRooms_idem db ctx.room_data)
  case CHECK_AVAILABILITY =>
    rw [generate_eq_avail db sf ctx hint]
    rw [handle_availability_state db ctx]
    rw [generate_eq_avail db sf
      { ctx with room_data := some (resolveRooms db ctx.room_data) } hint]
    exact handle_availability_congr db ctx _ rfl (resolveRooms_idem db ctx.room_data)
  case COMPARE_RATES =>
    rw [generate_eq_compare db sf ctx hint]
    rw [handle_rate_comparison_state db ctx]
    rw [generate_eq_compare db sf
      { ctx with room_data := some (resolveRooms db ctx.room_data) } hint]
    exact handle_rate_comparison_congr db ctx _ (resolveRooms_idem db ctx.room_data)
  case BOOK_ROOM =>
    rw [generate_eq_book db sf ctx hint]
    rw [handle_booking_state db ctx]
    rw [generate_eq_book db sf
      { ctx with room_data := some (resolveRooms db ctx.room_data) } hint]
    exact handle_booking_congr db ctx _ rfl (resolveRooms_idem db ctx.room_data)
  case GREETING =>
    rw [generate_eq_greeting db sf ctx hint]
    rw [show (handle_greeting ctx).2 = ctx from rfl]
    rw [generate_eq_greeting db sf ctx hint]
  case GOODBYE =>
    rw [generate_eq_goodbye db sf ctx hint]
    rw [show (handle_goodbye ctx).2 = ctx from rfl]
    rw [generate_eq_goodbye db sf ctx hint]
  case HELP =>
    rw [generate_eq_help db sf ctx hint]
    rw [handle_help_state sf ctx]
    rw [generate_eq_help db sf ctx hint]
  case UNKNOWN =>
    rw [generate_eq_unknown db sf ctx hint]
    rw [show (handle_unknown ctx).2 = ctx from rfl]
    rw [generate_eq_unknown db sf ctx hint]

/-- C8 witness: the amended theorem at a QUERY_ROOMS context with no
pre-set room data. -/
theorem c8_amended_idempotent_witness :
    (generate_response seedRooms sfEmpty
        ((generate_response seedRooms sfEmpty roomsQueryCtx).2)).1 =
      (generate_response seedRooms sfEmpty roomsQueryCtx).1 :=
  c8_amended_idempotent_generate seedRooms sfEmpty roomsQueryCtx (Or.inl rfl)


/-! C6: order of extracted entities. -/

theorem mem_insPos (x : Nat) (l : List Nat) (y : Nat) (h : y ∈ insPos x l) :
    y = x ∨ y ∈ l := by
  induction l with
  | nil => simpa [insPos] using h
  | cons a l ih =>
    unfold insPos at h
    by_cases h1 : x < a
    · rw [if_pos h1] at h
      rcases List.mem_cons.mp h with h2 | h2
      · exact Or.inl h2
      · exact Or.inr h2
    · rw [if_neg h1] at h
      by_cases h2 : x = a
      · rw [if_pos h2] at h
        exact Or.inr h
      · rw [if_neg h2] at h
        rcases List.mem_cons.mp h with h3 | h3
        · exact Or.inr (by rw [h3]; exact List.mem_cons_self a l)
        · rcases ih h3 with h4 | h4
          · exact Or.inl h4
          · exact Or.inr (List.mem_cons_of_mem a h4)

theorem mem_unionPos (xs ys : List Nat) (y : Nat) (h : y ∈ unionPos xs ys) :
    y ∈ xs ∨ y ∈ ys := by
  induction xs with
  | nil => exact Or.inr h
  | cons a xs ih =>
    have h1 : y ∈ insPos a (unionPos xs ys) := h
    rcases mem_insPos a _ y h1 with h2 | h2
    · exact Or.inl (by rw [h2]; exact List.mem_cons_self a xs)
    · rcases ih h2 with h3 | h3
      · exact Or.inl (List.mem_cons_of_mem a h3)
      · exact Or.inr h3

theorem mem_normPos (xs : List Nat) (y : Nat) (h : y ∈ normPos xs) : y ∈ xs := by
  induction xs with
  | nil => simpa [normPos] using h
  | cons a xs ih =>
    have h1 : y ∈ insPos a (normPos xs) := h
    rcases mem_insPos a _ y h1 with h2 | h2
    · rw [h2]
      exact List.mem_cons_self a xs
    · exact List.mem_cons_of_mem a (ih h2)

theorem starIter_ge (f : Nat → List Nat) (hf : ∀ x y, y ∈ f x → x ≤ y) (k : Nat) :
    ∀ (s : List Nat) (i : Nat), (∀ x ∈ s, i ≤ x) → ∀ x ∈ starIter f k s, i ≤ x := by
  induction k with
  | zero => intro s i hs x hx; exact hs x hx
  | succ k ih =>
    intro s i hs x hx
    refine ih (starStep f s) i ?_ x hx
    intro z hz
    rcases mem_unionPos _ _ z hz with h1 | h1
    · obtain ⟨w, hw, hzw⟩ := List.mem_flatMap.mp h1
      exact le_trans (hs w hw) (hf w z hzw)
    · exact hs z h1

/-- Every end position of a match starting at i is at least i: a match
never consumes text to the left of where it starts. -/
theorem endsFrom_ge (t : Chars) (r : Regex) : ∀ i j, j ∈ endsFrom t r i → i ≤ j := by
  induction r with
  | eps =>
    intro i j h
    have h2 : j = i := by simpa [endsFrom] using h
    omega
  | pred p =>
    intro i j h
    unfold endsFrom at h
    rcases hg : t.get? i with - | c
    · simp only [hg] at h
      cases h
    · simp only [hg] at h
      by_cases hp : p c
      · simp only [hp, if_true] at h
        have h2 : j = i + 1 := by simpa using h
        omega
      · simp [hp] at h
  | cat a b iha ihb =>
    intro i j h
    unfold endsFrom at h
    have h1 := mem_normPos _ _ h
    obtain ⟨k, hk, hjk⟩ := List.mem_flatMap.mp h1
    exact le_trans (iha i k hk) (ihb k j hjk)
  | alt a b iha ihb =>
    intro i j h
    unfold endsFrom at h
    rcases mem_unionPos _ _ _ h with h1 | h1
    · exact iha i j h1
    · exact ihb i j h1
  | star a iha =>
    intro i j h
    have hs : ∀ x ∈ [i], i ≤ x := by
      intro x hx
      rw [List.mem_singleton] at hx
      omega
    cases a with
    | pred p =>
      have h1 : j ∈ starPredEnds p t i := h
      obtain ⟨x, hx, h2⟩ := List.mem_map.mp h1
      omega
    | eps => exact starIter_ge _ (fun x y hy => iha x y hy) _ _ i hs j h
    | cat a1 a2 => exact starIter_ge _ (fun x y hy => iha x y hy) _ _ i hs j h
    | alt a1 a2 => exact starIter_ge _ (fun x y hy => iha x y hy) _ _ i hs j h
    | star a1 => exact starIter_ge _ (fun x y hy => iha x y hy) _ _ i hs j h
    | wordB => exact starIter_ge _ (fun x y hy => iha x y hy) _ _ i hs j h
    | bos => exact starIter_ge _ (fun x y hy => iha x y hy) _ _ i hs j h
    | eos => exact starIter_ge _ (fun x y hy => iha x y hy) _ _ i hs j h
  | wordB =>
    intro i j h
    unfold endsFrom at h
    split at h
    · have h2 : j = i := by simpa using h
      omega
    · cases h
  | bos =>
    intro i j h
    unfold endsFrom at h
    split at h
    · have h2 : j = i := by simpa using h
      omega
    · cases h
  | eos =>
    intro i j h
    unfold endsFrom at h
    split at h
    · have h2 : j = i := by simpa using h
      omega
    · cases h

theorem firstMatchStart_ge (r : Regex) (t : Chars) (i j : Nat)
    (h : firstMatchStart r t i = some j) : i ≤ j := by
  have h1 := List.mem_of_find?_eq_some h
  exact (List.mem_range'_1.mp h1).1

theorem getLastD_mem (a : Nat) (l : List Nat) (d : Nat) :
    (a :: l).getLastD d ∈ a :: l := by
  induction l generalizing a d with
  | nil => simp [List.getLastD]
  | cons b l2 ih =>
    have h1 : (a :: b :: l2).getLastD d = (b :: l2).getLastD a := rfl
    rw [h1]
    exact List.mem_cons_of_mem a (ih b a)

theorem getLastD_ge (t : Chars) (r : Regex) (j : Nat) :
    j ≤ (endsFrom t r j).getLastD j := by
  rcases he : endsFrom t r j with - | ⟨a, l⟩
  · exact Nat.le.refl
  · rw [← he]
    have h1 : (endsFrom t r j).getLastD j ∈ endsFrom t r j := by
      rw [he]
      exact getLastD_mem a l j
    exact endsFrom_ge t r j _ h1

/-- Every match the scan from i yields starts at or after i. -/
theorem findIterAux_ge (r : Regex) (t : Chars) (fuel : Nat) :
    ∀ i m, m ∈ findIterAux r t fuel i → i ≤ m.1 := by
  induction fuel with
  | zero => intro i m hm; cases hm
  | succ fuel ih =>
    intro i m hm
    unfold findIterAux at hm
    rcases hf : firstMatchStart r t i with - | j
    · simp only [hf] at hm
      cases hm
    · simp only [hf] at hm
      have hij : i ≤ j := firstMatchStart_ge r t i j hf
      have hje : j ≤ (endsFrom t r j).getLastD j := getLastD_ge t r j
      rcases List.mem_cons.mp hm with h2 | h2
      · rw [h2]
        exact hij
      · have h3 := ih _ m h2
        by_cases hej : (endsFrom t r j).getLastD j = j
        · rw [if_pos hej] at h3
          omega
        · rw [if_neg hej] at h3
          omega

/-- The scan yields matches with strictly increasing start positions. -/
theorem findIterAux_mono (r : Regex) (t : Chars) (fuel : Nat) :
    ∀ i, List.Pairwise (fun m m2 : Nat × Nat => m.1 < m2.1) (findIterAux r t fuel i) := by
  induction fuel with
  | zero => intro i; exact List.Pairwise.nil
  | succ fuel ih =>
    intro i
    unfold findIterAux
    rcases hf : firstMatchStart r t i with - | j
    · simp only [hf]
      exact List.Pairwise.nil
    · simp only [hf]
      refine List.Pairwise.cons ?_ (ih _)
      intro m hm
      have h2 := findIterAux_ge r t fuel _ m hm
      have hje : j ≤ (endsFrom t r j).getLastD j := getLastD_ge t r j
      show j < m.1
      by_cases hej : (endsFrom t r j).getLastD j = j
      · rw [if_pos hej] at h2
        omega
      · rw [if_neg hej] at h2
        omega

theorem findIter_mono (r : Regex) (t : Chars) :
    List.Pairwise (fun m m2 : Nat × Nat => m.1 < m2.1) (findIter r t) :=
  findIterAux_mono r t (t.length + 2) 0

theorem pairwise_flatMap_of_ranked {α β : Type} (R : β → β → Prop) (f : α → List β)
    (rank : α → Nat) (l : List α)
    (hmono : List.Pairwise (fun p q => rank p < rank q) l)
    (hcross : ∀ p, p ∈ l → ∀ q, q ∈ l → rank p < rank q →
      ∀ a, a ∈ f p → ∀ b, b ∈ f q → R a b)
    (hinner : ∀ p, p ∈ l → (f p).Pairwise R) :
    (l.flatMap f).Pairwise R := by
  induction l with
  | nil => exact List.Pairwise.nil
  | cons p l ih =>
    rw [List.flatMap_cons]
    apply List.pairwise_append.mpr
    refine ⟨hinner p (List.mem_cons_self p l), ?_, ?_⟩
    · apply ih hmono.of_cons
      · intro p2 hp2 q hq hlt a ha b hb
        exact hcross p2 (List.mem_cons_of_mem p hp2) q (List.mem_cons_of_mem p hq)
          hlt a ha b hb
      · intro p2 hp2
        exact hinner p2 (List.mem_cons_of_mem p hp2)
    · intro a ha b hb
      obtain ⟨q, hq, hbq⟩ := List.mem_flatMap.mp hb
      exact hcross p (List.mem_cons_self p l) q (List.mem_cons_of_mem p hq)
        ((List.pairwise_cons.mp hmono).1 q hq) a ha b hbq

theorem mem_enumFrom_le {α : Type} (l : List α) (n : Nat) (q : Nat × α)
    (hq : q ∈ List.enumFrom n l) : n ≤ q.1 := by
  induction l generalizing n with
  | nil => cases hq
  | cons a l ih =>
    have hq2 : q ∈ (n, a) :: List.enumFrom (n + 1) l := hq
    rcases List.mem_cons.mp hq2 with h | h
    · rw [h]
    · have h2 := ih (n + 1) h
      omega

theorem enumFrom_fst_pairwise {α : Type} (l : List α) (n : Nat) :
    List.Pairwise (fun p q : Nat × α => p.1 < q.1) (List.enumFrom n l) := by
  induction l generalizing n with
  | nil => exact List.Pairwise.nil
  | cons a l ih =>
    refine List.Pairwise.cons ?_ (ih (n + 1))
    intro q hq
    have h2 := mem_enumFrom_le l (n + 1) q hq
    show n < q.1
    omega

/-- The tags of extractTagged are strictly increasing in the
lexicographic order (entity-type table position, pattern position under
the type, match start position). -/
theorem extractTagged_pairwise (t : Chars) :
    List.Pairwise (fun a b : (Nat × Nat × Nat) × Entity => keyLt a.1 b.1)
      (extractTagged t) := by
  unfold extractTagged
  refine pairwise_flatMap_of_ranked _ _ (fun tb => tb.1) _
    (enumFrom_fst_pairwise _ 0) ?_ ?_
  · intro p hp q hq hlt a ha b hb
    obtain ⟨pb, hpb, ha2⟩ := List.mem_flatMap.mp ha
    obtain ⟨m, hm, ha3⟩ := List.mem_map.mp ha2
    obtain ⟨qb, hqb, hb2⟩ := List.mem_flatMap.mp hb
    obtain ⟨m2, hm2, hb3⟩ := List.mem_map.mp hb2
    rw [← ha3, ← hb3]
    exact Or.inl hlt
  · intro p hp
    refine pairwise_flatMap_of_ranked _ _ (fun pb => pb.1) _
      (enumFrom_fst_pairwise _ 0) ?_ ?_
    · intro pb hpb qb hqb hlt a ha b hb
      obtain ⟨m, hm, ha3⟩ := List.mem_map.mp ha
      obtain ⟨m2, hm2, hb3⟩ := List.mem_map.mp hb
      rw [← ha3, ← hb3]
      exact Or.inr ⟨rfl, Or.inl hlt⟩
    · intro pb hpb
      rw [List.pairwise_map]
      refine (findIter_mono pb.2.1 t).imp ?_
      intro m m2 hlt
      exact Or.inr ⟨rfl, Or.inr ⟨rfl, hlt⟩⟩

theorem map_snd_pairs {β δ : Type} (l : List δ) (k : δ → Nat × Nat × Nat)
    (e : δ → β) :
    (l.map fun m => (k m, e m)).map Prod.snd = l.map e := by
  induction l with
  | nil => rfl
  | cons a l ih => simp [ih]

/-- Dropping the tags of extractTagged recovers the entity list the
processor builds. -/
theorem extractTagged_snd (t : Chars) :
    (extractTagged t).map Prod.snd = extractEntities t := by
  unfold extractTagged extractEntities
  simp only [entityPatterns, roomTypePatterns, numberPatterns, datePatterns,
    bookingSourcePatterns, List.enum, List.enumFrom, List.flatMap_cons,
    List.flatMap_nil, List.map_append, List.append_nil, map_snd_pairs]

/-- C6 counterexample: on the input "2 deluxe" the extracted entity list
is the room-type entity followed by the number entity, although the
room-type pattern first matches at position 2 of the processed text
while the number pattern first matches at position 0: the entity matched
earlier in the text comes later in the list, because the list is grouped
by entity type in table order, not ordered by match position. -/
theorem c6_text_position_order_fails :
    (process orderText).entities =
      [⟨"room_type", "deluxe", pointNine⟩, ⟨"number", "2", pointNine⟩] ∧
    firstMatchStart deluxeWordPattern (loweredChars orderText) 0 = some 2 ∧
    firstMatchStart numberDigitsPattern (loweredChars orderText) 0 = some 0 := by
  decide

/-- C6 amended: for every input, the entity list is exactly the
enumeration of the entity-pattern table — the tagged extraction with the
tags dropped — and the tags are strictly increasing in the lexicographic
order (entity-type table position, pattern position within the type,
match start position). Entities are therefore grouped by entity type in
table insertion order and, only within one pattern, ordered by match
position in the text; they are not globally ordered by first match
position. -/
theorem c6_amended_entity_order (text : String) :
    (process text).entities = (extractTagged (loweredChars text)).map Prod.snd ∧
    List.Pairwise keyLt ((extractTagged (loweredChars text)).map Prod.fst) := by
  constructor
  · exact (extractTagged_snd (loweredChars text)).symm
  · rw [List.pairwise_map]
    exact extractTagged_pairwise (loweredChars text)

end SimploVoice
